import Mathlib

/-!
Shallow embedding of the `src2` core of the ccw-lpg_demo repository
(expression_evaluator.py, dynamic_graph_builder.py, rule_engine.py),
together with theorems settling the frozen claims C1..C10.

Python runtime values are modelled by `LPG.Value`; Python `float` is
modelled by an exact rational (`Rat`).  Property maps and contexts are
insertion-ordered association lists, matching Python 3 dictionaries.
Machine-level behaviours that no claim touches (hash ordering, binary
floating point rounding artifacts, the real square root inside
`statistics.stdev`) are noted at their definitions.
-/

namespace LPG

/-- Python runtime value as it occurs in this program: int, float
(modelled exactly as a rational), str, bool, None, and dict with string
keys (contexts / node property maps).  `null` models Python `None`. -/
inductive Value where
  | int (n : Int)
  | float (q : Rat)
  | str (s : String)
  | bool (b : Bool)
  | null
  | dict (entries : List (String × Value))
deriving Repr, BEq

/-- Property map / Python dict with string keys: insertion-ordered
association list. -/
abbrev PropMap := List (String × Value)

/-- Evaluation context: Python dict mapping identifiers to values. -/
abbrev Ctx := List (String × Value)

/-- `d.get(k)`-style lookup with a default. -/
def lookupD (m : PropMap) (k : String) (dflt : Value) : Value :=
  (m.lookup k).getD dflt

/-- Python `d[k] = v`: overwrite in place if the key exists (keeping its
position), else append. -/
def dictSet (m : PropMap) (k : String) (v : Value) : PropMap :=
  match m with
  | [] => [(k, v)]
  | (k', v') :: rest =>
      if k' = k then (k, v) :: rest else (k', v') :: dictSet rest k v

/-- Python `d.update(other)`: set every key of `other` in order. -/
def dictUpdate (m other : PropMap) : PropMap :=
  other.foldl (fun acc kv => dictSet acc kv.1 kv.2) m

/-- Numeric view used by Python arithmetic and numeric equality:
ints, floats, and bools (False = 0, True = 1) are numbers. -/
def numQ : Value → Option Rat
  | .int n => some (n : Rat)
  | .float q => some q
  | .bool b => some (if b then 1 else 0)
  | _ => none

/-- Python truthiness (`bool(v)`), as used by `if`-tests in the code:
zero numbers, empty strings, `None`, `False` and empty dicts are falsy. -/
def truthy : Value → Bool
  | .int n => n != 0
  | .float q => q != 0
  | .str s => s != ""
  | .bool b => b
  | .null => false
  | .dict e => !e.isEmpty

mutual

/-- Python `==` on the values this program manipulates.  Numbers
(including bools) compare numerically, `None` only equals `None`,
strings compare as strings, and distinct kinds are unequal.  Dicts are
compared entrywise in insertion order: every context dict in this
program is built in a deterministic order, so this agrees with Python's
order-insensitive dict equality on all comparisons the program makes. -/
def pyEq : Value → Value → Bool
  | .str a, .str b => a == b
  | .null, .null => true
  | .dict a, .dict b => pyEqEntries a b
  | a, b =>
      match numQ a, numQ b with
      | some x, some y => x == y
      | _, _ => false

/-- Entrywise dict equality (see `pyEq`). -/
def pyEqEntries : List (String × Value) → List (String × Value) → Bool
  | [], [] => true
  | (k, v) :: r, (k', v') :: r' => k == k' && pyEq v v' && pyEqEntries r r'
  | _, _ => false

end

/-- Decimal rendering of an exact rational whose denominator divides a
power of ten, as produced by Python's `str` on the floats this program
computes.  Returns `none` when no power of ten up to 10^64 works. -/
def qDecimalStr (q : Rat) : Option String :=
  if q.den = 1 then
    some (toString q.num ++ ".0")
  else
    match (List.range 65).find? (fun k => (10 ^ k) % q.den == 0) with
    | none => none
    | some k =>
        let m : Int := q.num * ((10 ^ k : Nat) / q.den)
        let digits := toString m.natAbs
        let ds :=
          if digits.length ≤ k then
            List.replicate (k + 1 - digits.length) '0' ++ digits.data
          else digits.data
        let intPart := String.mk (ds.take (ds.length - k))
        let fracPart := String.mk (ds.drop (ds.length - k))
        some ((if m < 0 then "-" else "") ++ intPart ++ "." ++ fracPart)

/-- Python `str(v)` for the values substituted back into expression
strings.  Rationals outside the exact-decimal range get a fallback
rendering; no claim exercises that region. -/
def pythonStr : Value → String
  | .int n => toString n
  | .float q => (qDecimalStr q).getD (toString q.num ++ "/" ++ toString q.den)
  | .str s => s
  | .bool b => if b then "True" else "False"
  | .null => "None"
  | .dict _ => "{...}"

/-- Is `p` a prefix of `s` (character lists)? -/
def isPrefixL : List Char → List Char → Bool
  | [], _ => true
  | _ :: _, [] => false
  | c :: p, d :: s => c == d && isPrefixL p s

/-- Does `pat` occur in `s` (character lists)? -/
def containsSubAux (pat : List Char) : List Char → Bool
  | [] => isPrefixL pat []
  | s@(_ :: t) => isPrefixL pat s || containsSubAux pat t

/-- Python `pat in s`. -/
def containsSubstr (s pat : String) : Bool :=
  containsSubAux pat.data s.data

/-- Replace every non-overlapping occurrence of `pat` (nonempty),
left to right; the fuel is always sufficient since each step consumes
at least one character. -/
def replaceAllAux (pat new : List Char) : Nat → List Char → List Char
  | 0, s => s
  | _, [] => []
  | fuel + 1, s@(c :: t) =>
      if pat.isEmpty then s
      else if isPrefixL pat s then new ++ replaceAllAux pat new fuel (s.drop pat.length)
      else c :: replaceAllAux pat new fuel t

/-- Python `s.replace(old, new)`: replace all occurrences. -/
def strReplaceAll (s old new : String) : String :=
  String.mk (replaceAllAux old.data new.data (s.length + 1) s.data)

/-- Replace the first occurrence of `pat` (nonempty). -/
def replaceFirstAux (pat new : List Char) : Nat → List Char → List Char
  | 0, s => s
  | _, [] => []
  | fuel + 1, s@(c :: t) =>
      if !pat.isEmpty && isPrefixL pat s then new ++ s.drop pat.length
      else c :: replaceFirstAux pat new fuel t

/-- Python `s.replace(old, new, 1)`: replace the first occurrence only. -/
def replaceFirst (s old new : String) : String :=
  String.mk (replaceFirstAux old.data new.data (s.length + 1) s.data)

/-- Split on a single character (Python `s.split(c)` semantics:
`""` splits to `[""]`, separators at the ends produce empty parts). -/
def splitOnCharL (c : Char) : List Char → List (List Char)
  | [] => [[]]
  | d :: t =>
      if d == c then [] :: splitOnCharL c t
      else
        match splitOnCharL c t with
        | [] => [[d]]
        | x :: xs => (d :: x) :: xs

/-- Python `s.split(".")`. -/
def splitOnDot (s : String) : List String :=
  (splitOnCharL '.' s.data).map String.mk

/-- Stable insertion of `x` into a list already sorted by descending
key length: `x` goes after entries of equal or greater length, matching
Python's stable `sorted(..., key=len, reverse=True)`. -/
def insertByLenDesc (x : String × String) : List (String × String) → List (String × String)
  | [] => [x]
  | y :: l => if y.1.length ≥ x.1.length then y :: insertByLenDesc x l else x :: y :: l

/-- Stable sort by descending length of the first component. -/
def sortByLenDesc (l : List (String × String)) : List (String × String) :=
  l.foldr insertByLenDesc []

/-! ### The host-language expression layer

`ExpressionEvaluator.evaluate` ends in
`eval(expression, {"__builtins__": {}}, local_vars)` — a call to the
host language's evaluator.  The following tokenizer, parser and
evaluator model CPython's behaviour on the expression fragment this
program can reach: literals, names, attribute access, calls (which,
with the builtins stripped, can only fail), arithmetic, comparisons
(with chaining), and short-circuit `and`/`or`/`not`.  Conditional
expressions, comprehensions, subscripts and dict methods are outside
the model; no rule document in the repository produces them. -/

/-- Token of the Python expression fragment. -/
inductive Tok where
  | num (v : Value)
  | name (s : String)
  | strLit (s : String)
  | op (s : String)
  | lparen
  | rparen
  | comma
  | dot
deriving Repr, BEq

/-- Word character of the regex class `\w`: letters, digits, underscore. -/
def isWordChar (c : Char) : Bool := c.isAlphanum || c == '_'

/-- Natural number denoted by a list of decimal digit characters. -/
def digitsToNat (ds : List Char) : Nat :=
  ds.foldl (fun acc c => acc * 10 + (c.toNat - '0'.toNat)) 0

/-- Rational with value `frac / 10 ^ len` for a fractional digit list. -/
def fracToRat (ds : List Char) : Rat :=
  (digitsToNat ds : Rat) / ((10 : Rat) ^ ds.length)

/-- Tokenizer for the Python expression fragment (fuelled; the fuel is
always sufficient because every step consumes at least one character). -/
def tokenizeAux : Nat → List Char → Except String (List Tok)
  | 0, _ => .error "SyntaxError: tokenizer fuel exhausted"
  | _, [] => .ok []
  | fuel + 1, c :: cs =>
    if c == ' ' || c == '\t' then tokenizeAux fuel cs
    else if c.isDigit then
      let (ds, rest) := (c :: cs).span Char.isDigit
      match rest with
      | '.' :: r2 =>
          let (fs, rest2) := r2.span Char.isDigit
          do
            let ts ← tokenizeAux fuel rest2
            .ok (Tok.num (.float ((digitsToNat ds : Rat) + fracToRat fs)) :: ts)
      | _ => do
          let ts ← tokenizeAux fuel rest
          .ok (Tok.num (.int (digitsToNat ds)) :: ts)
    else if isWordChar c then
      let (w, rest) := (c :: cs).span isWordChar
      do
        let ts ← tokenizeAux fuel rest
        .ok (Tok.name (String.mk w) :: ts)
    else if c == '\'' then
      let (body, rest) := cs.span (fun d => d != '\'')
      match rest with
      | '\'' :: r2 => do
          let ts ← tokenizeAux fuel r2
          .ok (Tok.strLit (String.mk body) :: ts)
      | _ => .error "SyntaxError: unterminated string literal"
    else if c == '(' then do
      let ts ← tokenizeAux fuel cs
      .ok (Tok.lparen :: ts)
    else if c == ')' then do
      let ts ← tokenizeAux fuel cs
      .ok (Tok.rparen :: ts)
    else if c == ',' then do
      let ts ← tokenizeAux fuel cs
      .ok (Tok.comma :: ts)
    else if c == '.' then
      match cs with
      | d :: _ =>
          if d.isDigit then
            let (fs, rest2) := cs.span Char.isDigit
            do
              let ts ← tokenizeAux fuel rest2
              .ok (Tok.num (.float (fracToRat fs)) :: ts)
          else do
            let ts ← tokenizeAux fuel cs
            .ok (Tok.dot :: ts)
      | [] => .ok [Tok.dot]
    else if c == '*' then
      match cs with
      | '*' :: r2 => do
          let ts ← tokenizeAux fuel r2
          .ok (Tok.op "**" :: ts)
      | _ => do
          let ts ← tokenizeAux fuel cs
          .ok (Tok.op "*" :: ts)
    else if c == '/' then
      match cs with
      | '/' :: r2 => do
          let ts ← tokenizeAux fuel r2
          .ok (Tok.op "//" :: ts)
      | _ => do
          let ts ← tokenizeAux fuel cs
          .ok (Tok.op "/" :: ts)
    else if c == '=' then
      match cs with
      | '=' :: r2 => do
          let ts ← tokenizeAux fuel r2
          .ok (Tok.op "==" :: ts)
      | _ => .error "SyntaxError: invalid syntax"
    else if c == '!' then
      match cs with
      | '=' :: r2 => do
          let ts ← tokenizeAux fuel r2
          .ok (Tok.op "!=" :: ts)
      | _ => .error "SyntaxError: invalid syntax"
    else if c == '<' then
      match cs with
      | '=' :: r2 => do
          let ts ← tokenizeAux fuel r2
          .ok (Tok.op "<=" :: ts)
      | _ => do
          let ts ← tokenizeAux fuel cs
          .ok (Tok.op "<" :: ts)
    else if c == '>' then
      match cs with
      | '=' :: r2 => do
          let ts ← tokenizeAux fuel r2
          .ok (Tok.op ">=" :: ts)
      | _ => do
          let ts ← tokenizeAux fuel cs
          .ok (Tok.op ">" :: ts)
    else if c == '+' || c == '-' || c == '%' then do
      let ts ← tokenizeAux fuel cs
      .ok (Tok.op (String.mk [c]) :: ts)
    else
      .error ("SyntaxError: unexpected character " ++ String.mk [c])

/-- Tokenize a whole expression string. -/
def tokenize (s : String) : Except String (List Tok) :=
  tokenizeAux (s.length + 1) s.data

/-- AST of the Python expression fragment. -/
inductive PExpr where
  | lit (v : Value)
  | name (s : String)
  | unop (o : String) (e : PExpr)
  | binop (o : String) (a b : PExpr)
  | call (f : PExpr) (args : List PExpr)
  | attr (e : PExpr) (field : String)
deriving Repr

/-- Comparison chain `a < b <= c` desugared to `and`-joined pairwise
comparisons; operands are pure here, so the duplication of the middle
operands is semantics-preserving. -/
def buildChain (a : PExpr) : List (String × PExpr) → PExpr
  | [] => a
  | [(o, b)] => .binop o a b
  | (o, b) :: rest => .binop "and" (.binop o a b) (buildChain b rest)

/-- Is this token one of the six comparison operators? -/
def isCmpTok : Tok → Bool
  | .op s => s == "==" || s == "!=" || s == "<" || s == "<=" || s == ">" || s == ">="
  | _ => false

mutual

/-- `or`-level parse (lowest precedence). -/
def parseOrE : Nat → List Tok → Except String (PExpr × List Tok)
  | 0, _ => .error "SyntaxError: parser fuel exhausted"
  | fuel + 1, ts => do
      let (a, rest) ← parseAndE fuel ts
      parseOrRest fuel a rest

def parseOrRest : Nat → PExpr → List Tok → Except String (PExpr × List Tok)
  | 0, _, _ => .error "SyntaxError: parser fuel exhausted"
  | fuel + 1, a, ts =>
      match ts with
      | Tok.name "or" :: rest => do
          let (b, rest2) ← parseAndE fuel rest
          parseOrRest fuel (.binop "or" a b) rest2
      | _ => .ok (a, ts)

def parseAndE : Nat → List Tok → Except String (PExpr × List Tok)
  | 0, _ => .error "SyntaxError: parser fuel exhausted"
  | fuel + 1, ts => do
      let (a, rest) ← parseNotE fuel ts
      parseAndRest fuel a rest

def parseAndRest : Nat → PExpr → List Tok → Except String (PExpr × List Tok)
  | 0, _, _ => .error "SyntaxError: parser fuel exhausted"
  | fuel + 1, a, ts =>
      match ts with
      | Tok.name "and" :: rest => do
          let (b, rest2) ← parseNotE fuel rest
          parseAndRest fuel (.binop "and" a b) rest2
      | _ => .ok (a, ts)

def parseNotE : Nat → List Tok → Except String (PExpr × List Tok)
  | 0, _ => .error "SyntaxError: parser fuel exhausted"
  | fuel + 1, ts =>
      match ts with
      | Tok.name "not" :: rest => do
          let (e, rest2) ← parseNotE fuel rest
          .ok (.unop "not" e, rest2)
      | _ => parseCmpE fuel ts

def parseCmpE : Nat → List Tok → Except String (PExpr × List Tok)
  | 0, _ => .error "SyntaxError: parser fuel exhausted"
  | fuel + 1, ts => do
      let (a, rest) ← parseAddE fuel ts
      let (pairs, rest2) ← parseCmpRest fuel rest
      .ok (buildChain a pairs, rest2)

def parseCmpRest :
    Nat → List Tok → Except String (List (String × PExpr) × List Tok)
  | 0, _ => .error "SyntaxError: parser fuel exhausted"
  | fuel + 1, ts =>
      match ts with
      | Tok.op o :: rest =>
          if isCmpTok (Tok.op o) then do
            let (b, rest2) ← parseAddE fuel rest
            let (pairs, rest3) ← parseCmpRest fuel rest2
            .ok ((o, b) :: pairs, rest3)
          else .ok ([], ts)
      | _ => .ok ([], ts)

def parseAddE : Nat → List Tok → Except String (PExpr × List Tok)
  | 0, _ => .error "SyntaxError: parser fuel exhausted"
  | fuel + 1, ts => do
      let (a, rest) ← parseMulE fuel ts
      parseAddRest fuel a rest

def parseAddRest : Nat → PExpr → List Tok → Except String (PExpr × List Tok)
  | 0, _, _ => .error "SyntaxError: parser fuel exhausted"
  | fuel + 1, a, ts =>
      match ts with
      | Tok.op "+" :: rest => do
          let (b, rest2) ← parseMulE fuel rest
          parseAddRest fuel (.binop "+" a b) rest2
      | Tok.op "-" :: rest => do
          let (b, rest2) ← parseMulE fuel rest
          parseAddRest fuel (.binop "-" a b) rest2
      | _ => .ok (a, ts)

def parseMulE : Nat → List Tok → Except String (PExpr × List Tok)
  | 0, _ => .error "SyntaxError: parser fuel exhausted"
  | fuel + 1, ts => do
      let (a, rest) ← parseUnaryE fuel ts
      parseMulRest fuel a rest

def parseMulRest : Nat → PExpr → List Tok → Except String (PExpr × List Tok)
  | 0, _, _ => .error "SyntaxError: parser fuel exhausted"
  | fuel + 1, a, ts =>
      match ts with
      | Tok.op "*" :: rest => do
          let (b, rest2) ← parseUnaryE fuel rest
          parseMulRest fuel (.binop "*" a b) rest2
      | Tok.op "/" :: rest => do
          let (b, rest2) ← parseUnaryE fuel rest
          parseMulRest fuel (.binop "/" a b) rest2
      | Tok.op "//" :: rest => do
          let (b, rest2) ← parseUnaryE fuel rest
          parseMulRest fuel (.binop "//" a b) rest2
      | Tok.op "%" :: rest => do
          let (b, rest2) ← parseUnaryE fuel rest
          parseMulRest fuel (.binop "%" a b) rest2
      | _ => .ok (a, ts)

def parseUnaryE : Nat → List Tok → Except String (PExpr × List Tok)
  | 0, _ => .error "SyntaxError: parser fuel exhausted"
  | fuel + 1, ts =>
      match ts with
      | Tok.op "-" :: rest => do
          let (e, rest2) ← parseUnaryE fuel rest
          .ok (.unop "-" e, rest2)
      | Tok.op "+" :: rest => do
          let (e, rest2) ← parseUnaryE fuel rest
          .ok (.unop "+" e, rest2)
      | _ => parsePowE fuel ts

def parsePowE : Nat → List Tok → Except String (PExpr × List Tok)
  | 0, _ => .error "SyntaxError: parser fuel exhausted"
  | fuel + 1, ts => do
      let (a, rest) ← parseTrailerE fuel ts
      match rest with
      | Tok.op "**" :: rest2 => do
          let (b, rest3) ← parseUnaryE fuel rest2
          .ok (.binop "**" a b, rest3)
      | _ => .ok (a, rest)

def parseTrailerE : Nat → List Tok → Except String (PExpr × List Tok)
  | 0, _ => .error "SyntaxError: parser fuel exhausted"
  | fuel + 1, ts => do
      let (a, rest) ← parseAtomE fuel ts
      parseTrailerRest fuel a rest

def parseTrailerRest : Nat → PExpr → List Tok → Except String (PExpr × List Tok)
  | 0, _, _ => .error "SyntaxError: parser fuel exhausted"
  | fuel + 1, a, ts =>
      match ts with
      | Tok.dot :: Tok.name f :: rest => parseTrailerRest fuel (.attr a f) rest
      | Tok.lparen :: Tok.rparen :: rest => parseTrailerRest fuel (.call a []) rest
      | Tok.lparen :: rest => do
          let (args, rest2) ← parseArgsE fuel rest
          match rest2 with
          | Tok.rparen :: rest3 => parseTrailerRest fuel (.call a args) rest3
          | _ => .error "SyntaxError: expected closing parenthesis"
      | _ => .ok (a, ts)

def parseArgsE : Nat → List Tok → Except String (List PExpr × List Tok)
  | 0, _ => .error "SyntaxError: parser fuel exhausted"
  | fuel + 1, ts => do
      let (a, rest) ← parseOrE fuel ts
      match rest with
      | Tok.comma :: rest2 => do
          let (args, rest3) ← parseArgsE fuel rest2
          .ok (a :: args, rest3)
      | _ => .ok ([a], rest)

def parseAtomE : Nat → List Tok → Except String (PExpr × List Tok)
  | 0, _ => .error "SyntaxError: parser fuel exhausted"
  | fuel + 1, ts =>
      match ts with
      | Tok.num v :: rest => .ok (.lit v, rest)
      | Tok.strLit s :: rest => .ok (.lit (.str s), rest)
      | Tok.name "True" :: rest => .ok (.lit (.bool true), rest)
      | Tok.name "False" :: rest => .ok (.lit (.bool false), rest)
      | Tok.name "None" :: rest => .ok (.lit .null, rest)
      | Tok.name "and" :: _ => .error "SyntaxError: invalid syntax"
      | Tok.name "or" :: _ => .error "SyntaxError: invalid syntax"
      | Tok.name "not" :: _ => .error "SyntaxError: invalid syntax"
      | Tok.name s :: rest => .ok (.name s, rest)
      | Tok.lparen :: rest => do
          let (e, rest2) ← parseOrE fuel rest
          match rest2 with
          | Tok.rparen :: rest3 => .ok (e, rest3)
          | _ => .error "SyntaxError: expected closing parenthesis"
      | _ => .error "SyntaxError: invalid syntax"

end

/-- Is this value of Python type `int` (or `bool`, its subtype)?  If
so, its integer value.  Python's int arithmetic is closed over these. -/
def intView : Value → Option Int
  | .int n => some n
  | .bool b => some (if b then 1 else 0)
  | _ => none

/-- CPython binary arithmetic on the fragment's values.  Two int-like
operands stay in integer arithmetic (`/` excepted: true division is
always float, `ZeroDivisionError` on zero; `//`/`%` floor toward the
divisor's sign); mixed or float operands compute on the exact
rational; `**` is modelled for integral exponents (no rule document
produces a fractional one); `+` concatenates strings; everything else
is a `TypeError`. -/
def pyArith (o : String) (a b : Value) : Except String Value :=
  match intView a, intView b with
  | some m, some n =>
      if o == "+" then .ok (.int (m + n))
      else if o == "-" then .ok (.int (m - n))
      else if o == "*" then .ok (.int (m * n))
      else if o == "/" then
        if n == 0 then .error "ZeroDivisionError: division by zero"
        else .ok (.float ((m : Rat) / (n : Rat)))
      else if o == "//" then
        if n == 0 then .error "ZeroDivisionError: integer division or modulo by zero"
        else .ok (.int (Int.fdiv m n))
      else if o == "%" then
        if n == 0 then .error "ZeroDivisionError: integer division or modulo by zero"
        else .ok (.int (Int.fmod m n))
      else if o == "**" then
        if 0 ≤ n then .ok (.int (m ^ n.toNat))
        else if m == 0 then
          .error "ZeroDivisionError: zero cannot be raised to a negative power"
        else .ok (.float ((m : Rat) ^ n))
      else .error ("TypeError: unsupported operator " ++ o)
  | _, _ =>
      match numQ a, numQ b with
      | some x, some y =>
          if o == "+" then .ok (.float (x + y))
          else if o == "-" then .ok (.float (x - y))
          else if o == "*" then .ok (.float (x * y))
          else if o == "/" then
            if y == 0 then .error "ZeroDivisionError: division by zero"
            else .ok (.float (x / y))
          else if o == "//" then
            if y == 0 then .error "ZeroDivisionError: integer division or modulo by zero"
            else .ok (.float ((x / y).floor : Int))
          else if o == "%" then
            if y == 0 then .error "ZeroDivisionError: integer division or modulo by zero"
            else .ok (.float (x - y * ((x / y).floor : Int)))
          else if o == "**" then
            if y.den == 1 then
              if 0 ≤ y.num then .ok (.float (x ^ y.num.toNat))
              else if x == 0 then
                .error "ZeroDivisionError: zero cannot be raised to a negative power"
              else .ok (.float (x ^ y.num))
            else .error "model limit: non-integral exponent"
          else .error ("TypeError: unsupported operator " ++ o)
      | _, _ =>
          match o, a, b with
          | "+", .str s, .str t => .ok (.str (s ++ t))
          | _, _, _ =>
              .error ("TypeError: unsupported operand type(s) for " ++ o)

/-- CPython comparison.  `==`/`!=` never fail; the order comparisons
work on numbers (bools included) and on pairs of strings, and raise
`TypeError` otherwise (in particular against `None`). -/
def pyCmp (o : String) (a b : Value) : Except String Value :=
  if o == "==" then .ok (.bool (pyEq a b))
  else if o == "!=" then .ok (.bool (!pyEq a b))
  else
    match numQ a, numQ b with
    | some x, some y =>
        if o == "<" then .ok (.bool (x < y))
        else if o == "<=" then .ok (.bool (x ≤ y))
        else if o == ">" then .ok (.bool (y < x))
        else .ok (.bool (y ≤ x))
    | _, _ =>
        match a, b with
        | .str s, .str t =>
            if o == "<" then .ok (.bool (s < t))
            else if o == "<=" then .ok (.bool (s < t || s == t))
            else if o == ">" then .ok (.bool (t < s))
            else .ok (.bool (t < s || s == t))
        | _, _ =>
            .error ("TypeError: comparison " ++ o ++ " not supported between these types")

/-- The `NameError` message for an unbound identifier. -/
def nameError (n : String) : String :=
  "NameError: name " ++ n ++ " is not defined"

mutual

/-- Evaluation of a parsed expression against `locals = env` and
`globals = around an empty builtins dict`, exactly the two mappings
the code passes to `eval`.  Name lookup therefore succeeds for the
context entries and for the identifier `__builtins__` itself (bound to
the empty dict the code installs), and for nothing else.  With the
builtins stripped, every call expression fails: either its callee is an
unbound name, or it is a context value, none of which is callable. -/
def evalP (env : Ctx) : PExpr → Except String Value
  | .lit v => .ok v
  | .name n =>
      match env.lookup n with
      | some v => .ok v
      | none => if n == "__builtins__" then .ok (.dict []) else .error (nameError n)
  | .unop o e => do
      let v ← evalP env e
      if o == "not" then .ok (.bool (!truthy v))
      else
        match intView v with
        | some m => if o == "-" then .ok (.int (-m)) else .ok (.int m)
        | none =>
            match v with
            | .float x => if o == "-" then .ok (.float (-x)) else .ok (.float x)
            | _ => .error ("TypeError: bad operand type for unary " ++ o)
  | .binop o a b =>
      if o == "and" then do
        let va ← evalP env a
        if truthy va then evalP env b else .ok va
      else if o == "or" then do
        let va ← evalP env a
        if truthy va then .ok va else evalP env b
      else if isCmpTok (.op o) then do
        let va ← evalP env a
        let vb ← evalP env b
        pyCmp o va vb
      else do
        let va ← evalP env a
        let vb ← evalP env b
        pyArith o va vb
  | .call f args => do
      let _ ← evalP env f
      let _ ← evalArgsP env args
      .error "TypeError: object is not callable"
  | .attr e field => do
      let _ ← evalP env e
      .error ("AttributeError: " ++ field)

/-- Evaluate call arguments left to right (only their errors can ever
be observed; see `evalP` on calls). -/
def evalArgsP (env : Ctx) : List PExpr → Except String (List Value)
  | [] => .ok []
  | e :: rest => do
      let v ← evalP env e
      let vs ← evalArgsP env rest
      .ok (v :: vs)

end

/-- The full host-eval pipeline on a string:
tokenize, parse a single expression consuming all input, evaluate. -/
def runPyEval (env : Ctx) (s : String) : Except String Value := do
  let ts ← tokenize s
  let (e, rest) ← parseOrE (ts.length * 16 + 16) ts
  if rest.isEmpty then evalP env e
  else .error "SyntaxError: invalid syntax"

/-! ### Graph store (networkx.MultiDiGraph as the program uses it) -/

/-- The in-memory multigraph: insertion-ordered nodes with property
maps, and an insertion-ordered edge list (the multigraph key of
networkx is the position in this list). -/
structure Graph where
  nodes : List (String × PropMap)
  edges : List (String × String × PropMap)
deriving Repr

/-- The empty graph. -/
def Graph.empty : Graph := ⟨[], []⟩

/-- Map one node entry through `f` when it carries the given id. -/
def updEntry (id : String) (f : PropMap → PropMap) (nd : String × PropMap) :
    String × PropMap :=
  if nd.1 = id then (nd.1, f nd.2) else nd

/-- `graph.add_node(id, **props)` in networkx: if the node exists its
attributes are updated (colliding keys overwritten in place, new keys
appended); otherwise the node is appended.  It never fails. -/
def addNode (g : Graph) (id : String) (props : PropMap) : Graph :=
  if (g.nodes.lookup id).isSome then
    { g with nodes := g.nodes.map (updEntry id (fun pm => dictUpdate pm props)) }
  else { g with nodes := g.nodes ++ [(id, props)] }

/-- `graph.add_edge(u, v, **props)` in networkx: missing endpoints are
silently created with empty attributes, then the edge is appended. -/
def addEdge (g : Graph) (u v : String) (props : PropMap) : Graph :=
  let g := if (g.nodes.lookup u).isSome then g
    else { g with nodes := g.nodes ++ [(u, [])] }
  let g := if (g.nodes.lookup v).isSome then g
    else { g with nodes := g.nodes ++ [(v, [])] }
  { g with edges := g.edges ++ [(u, v, props)] }

/-- `graph.nodes[id]`: the property map of a node that is known to be
present; absent ids yield the empty map (the code only indexes ids it
just enumerated from the graph or the builder map). -/
def nodeProps (g : Graph) (id : String) : PropMap :=
  (g.nodes.lookup id).getD []

/-- The nodes `n` with `data.get('label') == ent`, in insertion order
(the comprehension over `graph.nodes(data=True)` used throughout). -/
def nodesWithLabel (g : Graph) (ent : String) : List (String × PropMap) :=
  g.nodes.filter (fun nd => pyEq (lookupD nd.2 "label" .null) (.str ent))

/-- First-occurrence deduplication (networkx adjacency preserves the
first insertion of each successor). -/
def dedupFirst : List String → List String
  | [] => []
  | x :: rest => x :: dedupFirst (rest.filter (fun y => y ≠ x))
termination_by l => l.length
decreasing_by
  simp only [List.length_cons]
  exact Nat.lt_succ_of_le (List.length_filter_le _ _)

/-- `graph.successors(n)`: distinct edge targets out of `n`, ordered by
first edge insertion. -/
def successorsOf (g : Graph) (n : String) : List String :=
  dedupFirst (g.edges.filterMap (fun e => if e.1 = n then some e.2.1 else none))

/-! ### ExpressionEvaluator -/

/-- The evaluator's aggregation cache `(function, entity, field) →
result`, keyed by the f-string the code builds. -/
abbrev Cache := List (String × Value)

/-- The cache key `f"{function}_{entity}_{field}"`. -/
def aggCacheKey (fn ent fld : String) : String :=
  fn ++ "_" ++ ent ++ "_" ++ fld

/-- Python `sum(values)`: fold `+` from the int `0`. -/
def pySumL (vs : List Value) : Except String Value :=
  vs.foldlM (fun acc v => pyArith "+" acc v) (Value.int 0)

/-- Convert a list of collected values to numbers, failing on the
first non-numeric one (as `statistics`' internal summation does). -/
def numsOf : List Value → Except String (List Rat)
  | [] => .ok []
  | v :: rest =>
      match numQ v with
      | some q => do
          let qs ← numsOf rest
          .ok (q :: qs)
      | none => .error "TypeError: can't convert value to a number"

/-- `statistics.mean(values)`: the exact mean of the data.  Following
`statistics._convert`, data whose common type is int (ints and bools)
with an integral mean yields that mean as an int; every other case —
any float in the data, or a non-integral mean — yields a float. -/
def pyMeanL (vs : List Value) : Except String Value := do
  let qs ← numsOf vs
  if vs.isEmpty then .error "StatisticsError: mean requires at least one data point"
  else
    let m := qs.sum / (qs.length : Rat)
    if vs.all (fun v => (intView v).isSome) && m.den == 1 then .ok (.int m.num)
    else .ok (.float m)

/-- Python `max(values)`: first element, then replace on a successful
`>` comparison; a single element needs no comparison at all. -/
def pyMaxL : List Value → Except String Value
  | [] => .error "ValueError: max() arg is an empty sequence"
  | v :: rest =>
      rest.foldlM (fun cur x => do
        let c ← pyCmp ">" x cur
        pure (if truthy c then x else cur)) v

/-- Python `min(values)`: as `pyMaxL` with `<`. -/
def pyMinL : List Value → Except String Value
  | [] => .error "ValueError: min() arg is an empty sequence"
  | v :: rest =>
      rest.foldlM (fun cur x => do
        let c ← pyCmp "<" x cur
        pure (if truthy c then x else cur)) v

/-- Sample variance `Σ (x - mean)² / (n - 1)`. -/
def sampleVar (qs : List Rat) : Rat :=
  let n : Rat := qs.length
  let m := qs.sum / n
  (qs.map (fun x => (x - m) * (x - m))).sum / (n - 1)

/-- Rational stand-in for the real square root taken inside
`statistics.stdev`; the code's `stddev` branch is only consumed by the
theorems below through its `len(values) ≤ 1 → 0` guard, so no theorem
depends on this approximation's value. -/
def ratSqrtApprox (q : Rat) : Rat :=
  (Nat.sqrt (q.num.toNat * q.den) : Rat) / (q.den : Rat)

/-- `statistics.stdev(values)` for two or more values. -/
def pyStdevL (vs : List Value) : Except String Value := do
  let qs ← numsOf vs
  .ok (.float (ratSqrtApprox (sampleVar qs)))

/-- The values `evaluate_aggregation` collects: from every node of the
label, the field's value whenever the field is present — `None` values
included, not ignored. -/
def aggCollect (g : Graph) (ent fld : String) : List Value :=
  (nodesWithLabel g ent).filterMap (fun nd => nd.2.lookup fld)

/-- The uncached computation of `evaluate_aggregation` (its body after
the graph guard): `count` counts the labelled nodes, the others reduce
the collected values — `None` included wherever the field is present —
with `0` for an empty collection and a `ValueError` for an unknown
function name. -/
def aggCompute (g : Graph) (fn ent fld : String) : Except String Value :=
  if fn == "count" then .ok (.int (nodesWithLabel g ent).length)
  else
    let values := aggCollect g ent fld
    if values.isEmpty then .ok (.int 0)
    else if fn == "avg" then pyMeanL values
    else if fn == "sum" then pySumL values
    else if fn == "max" then pyMaxL values
    else if fn == "min" then pyMinL values
    else if fn == "stddev" then
      if values.length > 1 then pyStdevL values else .ok (.int 0)
    else .error ("ValueError: 未対応の集約関数: " ++ fn)

/-- `ExpressionEvaluator.evaluate_aggregation`.  A cached key answers
immediately.  The `if not self.graph` guard uses the object's
truthiness, which for a networkx graph is `len(graph) > 0`; the engine
always installs a graph object, so the guard fires exactly on a graph
with no nodes.  Fresh results are cached; failures are raised before
caching. -/
def evaluateAggregation (g : Graph) (c : Cache) (fn ent fld : String) :
    Except String Value × Cache :=
  match c.lookup (aggCacheKey fn ent fld) with
  | some v => (.ok v, c)
  | none =>
    if g.nodes.isEmpty then (.error "ValueError: グラフが設定されていません", c)
    else
      match aggCompute g fn ent fld with
      | .ok v => (.ok v, dictSet c (aggCacheKey fn ent fld) v)
      | .error e => (.error e, c)

/-- The fixed instant standing in for `datetime.now().isoformat()`
(the only nondeterministic input of the evaluator; modelled as an
injected constant). -/
def nowIso : String := "2026-01-01T00:00:00"

/-- The six function names of the aggregation regex alternation. -/
def aggFns : List String := ["avg", "sum", "max", "min", "count", "stddev"]

/-- Match a literal character sequence at the head of the input. -/
def matchLiteral : List Char → List Char → Option (List Char)
  | [], rest => some rest
  | _ :: _, [] => none
  | c :: ls, d :: ds => if c == d then matchLiteral ls ds else none

/-- Try the regex `fn\((\w+)(?:\.(\w+))?\)` for one function name at
this exact position. -/
def tryAggFn (fn : String) (s : List Char) :
    Option ((String × String × Option String) × List Char) := do
  let r1 ← matchLiteral (fn ++ "(").data s
  let (w, r3) := r1.span isWordChar
  if w.isEmpty then none
  else
    match r3 with
    | ')' :: r4 => some ((fn, String.mk w, none), r4)
    | '.' :: r5 =>
        let (w2, r6) := r5.span isWordChar
        if w2.isEmpty then none
        else
          match r6 with
          | ')' :: r7 => some ((fn, String.mk w, some (String.mk w2)), r7)
          | _ => none
    | _ => none

/-- One position of the aggregation-call scan: regex alternation in
document order (the six names share no prefixes, so order is moot). -/
def tryAggAt (s : List Char) :
    Option ((String × String × Option String) × List Char) :=
  aggFns.findSome? (fun fn => tryAggFn fn s)

/-- All non-overlapping matches of the aggregation-call regex,
scanning left to right (`re.finditer` on the original string). -/
def scanAggAux : Nat → List Char → List (String × String × Option String)
  | 0, _ => []
  | _, [] => []
  | fuel + 1, s =>
      match tryAggAt s with
      | some (m, r) => m :: scanAggAux fuel r
      | none =>
          match s with
          | [] => []
          | _ :: rest => scanAggAux fuel rest

/-- The exact text an aggregation match covers (used for the
`str.replace` of all its occurrences). -/
def aggMatchText (fn ent : String) (fld : Option String) : String :=
  fn ++ "(" ++ ent ++ (match fld with | some f => "." ++ f | none => "") ++ ")"

/-- Replacement loop of `_replace_functions`: each match is evaluated
(`count` without a field against the empty field, fielded calls
normally, a field-less non-`count` call is skipped), and all
occurrences of its text are replaced by `str(result)` — unquoted. -/
def replFnGo (g : Graph) :
    List (String × String × Option String) → String → Cache →
    Except String String × Cache
  | [], e, c => (.ok e, c)
  | (fn, ent, fld) :: rest, e, c =>
      if fn == "count" && fld.isNone then
        match evaluateAggregation g c fn ent "" with
        | (.ok v, c') =>
            replFnGo g rest (strReplaceAll e (aggMatchText fn ent fld) (pythonStr v)) c'
        | (.error err, c') => (.error err, c')
      else
        match fld with
        | some f =>
            match evaluateAggregation g c fn ent f with
            | (.ok v, c') =>
                replFnGo g rest (strReplaceAll e (aggMatchText fn ent (some f)) (pythonStr v)) c'
            | (.error err, c') => (.error err, c')
        | none => replFnGo g rest e c

/-- `ExpressionEvaluator._replace_functions`: substitute `now()`, then
evaluate and substitute every aggregation call. -/
def replaceFunctions (g : Graph) (c : Cache) (expr : String) :
    Except String String × Cache :=
  let expr :=
    if containsSubstr expr "now()" then
      strReplaceAll expr "now()" ("'" ++ nowIso ++ "'")
    else expr
  replFnGo g (scanAggAux (expr.length + 1) expr.data) expr c

/-- Try the field-reference regex `(\w+)\.(\w+)` at this position. -/
def tryFieldRefAt (s : List Char) : Option ((String × String) × List Char) :=
  let (w, r) := s.span isWordChar
  if w.isEmpty then none
  else
    match r with
    | '.' :: r2 =>
        let (w2, r3) := r2.span isWordChar
        if w2.isEmpty then none else some ((String.mk w, String.mk w2), r3)
    | _ => none

/-- All non-overlapping `(\w+)\.(\w+)` matches, left to right. -/
def scanFieldRefsAux : Nat → List Char → List (String × String)
  | 0, _ => []
  | _, [] => []
  | fuel + 1, s =>
      match tryFieldRefAt s with
      | some (m, r) => m :: scanFieldRefsAux fuel r
      | none =>
          match s with
          | [] => []
          | _ :: rest => scanFieldRefsAux fuel rest

/-- `ExpressionEvaluator._replace_field_references`: for every matched
`entity.field` whose entity is a dict in the context containing the
field, substitute the value (strings singly quoted, everything else via
`str`), longest matches first (stably), one occurrence per match. -/
def replaceFieldReferences (expr : String) (ctx : Ctx) : String :=
  let ms := scanFieldRefsAux (expr.length + 1) expr.data
  let repls := ms.filterMap (fun m =>
    match ctx.lookup m.1 with
    | some (.dict d) =>
        match d.lookup m.2 with
        | some v =>
            some (m.1 ++ "." ++ m.2,
              match v with
              | .str s => "'" ++ s ++ "'"
              | _ => pythonStr v)
        | none => none
    | _ => none)
  (sortByLenDesc repls).foldl (fun e r => replaceFirst e r.1 r.2) expr

/-- `ExpressionEvaluator.evaluate`: prepare the context (the identity
on our representation), substitute function calls, substitute field
references, then hand the string to the host-language `eval` with
empty builtins.  Failures of the final `eval` are wrapped in
`ValueError`; failures of the aggregation substitution propagate as
they are.  The cache is returned even on failure, because the Python
evaluator object keeps results cached across a raised exception. -/
def evaluate (g : Graph) (c : Cache) (expr : String) (ctx : Ctx) :
    Except String Value × Cache :=
  match replaceFunctions g c expr with
  | (.error e, c') => (.error e, c')
  | (.ok e1, c') =>
      let e2 := replaceFieldReferences e1 ctx
      match runPyEval ctx e2 with
      | .ok v => (.ok v, c')
      | .error err =>
          (.error ("ValueError: 式の評価に失敗: " ++ e2 ++ ", エラー: " ++ err), c')

/-- A condition document: the dictionary shape `evaluate_condition`
and `_evaluate_join_condition` both consume, with every key the code
ever reads.  A missing key is `none` (`conditions` defaults to `[]`,
matching the code's `.get("conditions", [])`). -/
inductive CondDict where
  | mk (operator : Option String) (conditions : List CondDict)
      (ctype fromExpression toExpression expression fromField toField :
        Option String)

/-- The `from_field` entry of a condition document. -/
def CondDict.fromFieldOf : CondDict → Option String
  | .mk _ _ _ _ _ _ ff _ => ff

/-- The `to_field` entry of a condition document. -/
def CondDict.toFieldOf : CondDict → Option String
  | .mk _ _ _ _ _ _ _ tf => tf

/-- The typed (non-operator) tail of `evaluate_condition`: a direct
`condition["type"]` access (KeyError when absent), then the
`field_match` branch reading `from_expression`/`to_expression` — also
direct accesses — or the `expression` branch, or `return False`. -/
def evalCondTyped (g : Graph) (c : Cache)
    (ctype fromE toE exprO : Option String) (ctx : Ctx) :
    Except String Bool × Cache :=
  match ctype with
  | none => (.error "KeyError: type", c)
  | some t =>
      if t == "field_match" then
        match fromE with
        | none => (.error "KeyError: from_expression", c)
        | some fe =>
            match evaluate g c fe ctx with
            | (.error e, c') => (.error e, c')
            | (.ok fv, c') =>
                match toE with
                | none => (.error "KeyError: to_expression", c')
                | some te =>
                    match evaluate g c' te ctx with
                    | (.error e, c'') => (.error e, c'')
                    | (.ok tv, c'') => (.ok (pyEq fv tv), c'')
      else if t == "expression" then
        match exprO with
        | none => (.error "KeyError: expression", c)
        | some ex =>
            match evaluate g c ex ctx with
            | (.error e, c') => (.error e, c')
            | (.ok v, c') => (.ok (truthy v), c')
      else (.ok false, c)

mutual

/-- `ExpressionEvaluator.evaluate_condition`: boolean composition when
an `operator` key is present and names AND/OR/NOT (case-insensitively);
otherwise — including an unrecognized operator — fall through to the
typed branches. -/
def evaluateCondition (g : Graph) (c : Cache) (cond : CondDict) (ctx : Ctx) :
    Except String Bool × Cache :=
  match cond with
  | .mk operator conditions ctype fromE toE exprO _ _ =>
      match operator with
      | some op =>
          let u := op.toUpper
          if u == "AND" then evalCondAll g c conditions ctx
          else if u == "OR" then evalCondAny g c conditions ctx
          else if u == "NOT" then
            match conditions with
            | [] => (.error "IndexError: list index out of range", c)
            | c0 :: _ =>
                match evaluateCondition g c c0 ctx with
                | (.ok b, c') => (.ok (!b), c')
                | e => e
          else evalCondTyped g c ctype fromE toE exprO ctx
      | none => evalCondTyped g c ctype fromE toE exprO ctx

/-- Short-circuit `all(...)` over subconditions. -/
def evalCondAll (g : Graph) (c : Cache) (conds : List CondDict) (ctx : Ctx) :
    Except String Bool × Cache :=
  match conds with
  | [] => (.ok true, c)
  | c0 :: rest =>
      match evaluateCondition g c c0 ctx with
      | (.ok true, c') => evalCondAll g c' rest ctx
      | (.ok false, c') => (.ok false, c')
      | e => e

/-- Short-circuit `any(...)` over subconditions. -/
def evalCondAny (g : Graph) (c : Cache) (conds : List CondDict) (ctx : Ctx) :
    Except String Bool × Cache :=
  match conds with
  | [] => (.ok false, c)
  | c0 :: rest =>
      match evaluateCondition g c c0 ctx with
      | (.ok false, c') => evalCondAny g c' rest ctx
      | (.ok true, c') => (.ok true, c')
      | e => e

end

/-- `DynamicGraphBuilder._evaluate_join_condition`: `.get` both field
names, and when both are truthy strings compare
`from_data.get(from_field) == to_data.get(to_field)`; all other shapes
return `False`. -/
def evaluateJoinCondition (cond : CondDict) (fromData toData : PropMap) : Bool :=
  match cond.fromFieldOf, cond.toFieldOf with
  | some f, some t =>
      if f != "" && t != "" then
        pyEq (lookupD fromData f .null) (lookupD toData t .null)
      else false
  | _, _ => false

/-! ### DynamicGraphBuilder -/

/-- A tabular row as pandas hands it to the builder: ordered
column → cell mapping; `pd.isna` cells arrive as `Value.null`. -/
abbrev Row := List (String × Value)

/-- One property definition of the schema (`type`, `alias`,
`required`). -/
structure FieldDef where
  type : Option String
  aliasName : Option String
  required : Bool
deriving Repr

/-- One entity of the schema, with the fields the builder reads. -/
structure Entity where
  name : String
  idField : Option String
  idTemplate : Option String
  properties : List (String × FieldDef)
deriving Repr

/-- Python `int(v)` on the cell values that occur: ints pass, floats
truncate toward zero, bools become 0/1, decimal strings parse. -/
def pyIntOf : Value → Except String Int
  | .int n => .ok n
  | .float q => .ok (q.num / (q.den : Int))
  | .bool b => .ok (if b then 1 else 0)
  | .str s =>
      match s.toInt? with
      | some n => .ok n
      | none => .error ("ValueError: invalid literal for int(): " ++ s)
  | _ => .error "TypeError: int() argument"

/-- Parse a plain decimal string (optional sign, digits, optional
fractional digits); scientific notation never occurs in the data. -/
def parseDecimalStr (s : String) : Option Rat :=
  let (sgn, body) :=
    match s.data with
    | '-' :: rest => ((-1 : Rat), rest)
    | l => ((1 : Rat), l)
  match splitOnCharL '.' body with
  | [a] =>
      if !a.isEmpty && a.all Char.isDigit then
        some (sgn * (digitsToNat a : Rat))
      else none
  | [a, b] =>
      if !(a ++ b).isEmpty && (a ++ b).all Char.isDigit then
        some (sgn * ((digitsToNat a : Rat) + fracToRat b))
      else none
  | _ => none

/-- Python `float(v)` on the cell values that occur. -/
def pyFloatOf : Value → Except String Rat
  | .int n => .ok n
  | .float q => .ok q
  | .bool b => .ok (if b then 1 else 0)
  | .str s =>
      match parseDecimalStr s with
      | some q => .ok q
      | none => .error ("ValueError: could not convert string to float: " ++ s)
  | _ => .error "TypeError: float() argument"

/-- Is this the Python `None` (the `pd.isna` test on our cells)? -/
def isNullV : Value → Bool
  | .null => true
  | _ => false

/-- `DynamicGraphBuilder._convert_value`: NaN/None cells become null,
else the cell is coerced to the declared type. -/
def convertValue (v : Value) (ftype : String) : Except String Value :=
  if isNullV v then .ok .null
  else if ftype == "integer" then (Value.int) <$> pyIntOf v
  else if ftype == "float" then (Value.float) <$> pyFloatOf v
  else if ftype == "string" then .ok (.str (pythonStr v))
  else if ftype == "boolean" then .ok (.bool (truthy v))
  else .ok v

/-- The exact template text a placeholder match covers,
`{field}` or `{field:fmt}`. -/
def tplMatchText (field : String) (fmt : Option String) : String :=
  "\x7b" ++ field ++ (match fmt with | some f => ":" ++ f | none => "") ++ "\x7d"

/-- `f"{value:{fmt}}"` for the format specs the schemas use: the
zero-padded integer forms `0Nd`/`Nd` (negative-int numbers keep the
sign outside the padding, as CPython does). -/
def formatPy (v : Value) (fmt : String) : Except String String :=
  if fmt.data.getLast? == some 'd' then
    let w : String := String.mk fmt.data.dropLast
    if w.data.all Char.isDigit then
      match pyIntOf v with
      | .ok n =>
          let width := digitsToNat w.data
          let body := toString n.natAbs
          let sign := if n < 0 then "-" else ""
          let pad := width - (body.length + sign.length)
          .ok (sign ++ String.mk (List.replicate pad '0') ++ body)
      | .error e => .error e
    else .error ("ValueError: unsupported format spec " ++ fmt)
  else .error ("ValueError: unsupported format spec (model) " ++ fmt)

/-- Try the builder's template regex `\{(\w+)(?::([^}]+))?\}` at this
position. -/
def tryTplB (s : List Char) : Option ((String × Option String) × List Char) :=
  match s with
  | '{' :: r =>
      let (w, r2) := r.span isWordChar
      if w.isEmpty then none
      else
        match r2 with
        | '}' :: r3 => some ((String.mk w, none), r3)
        | ':' :: r4 =>
            let (f, r5) := r4.span (fun c => c != '}')
            if f.isEmpty then none
            else
              match r5 with
              | '}' :: r6 => some ((String.mk w, some (String.mk f)), r6)
              | _ => none
        | _ => none
  | _ => none

/-- All matches of the builder's template regex, left to right. -/
def scanTplB : Nat → List Char → List (String × Option String)
  | 0, _ => []
  | _, [] => []
  | fuel + 1, s =>
      match tryTplB s with
      | some (m, r) => m :: scanTplB fuel r
      | none =>
          match s with
          | [] => []
          | _ :: rest => scanTplB fuel rest

/-- Template resolution inside `_generate_node_id`: every placeholder
found in the original template is resolved against the row (failing
with the code's ValueError on a missing field) and all occurrences of
its text are replaced. -/
def genIdFromTemplateB (tpl : String) (row : Row) : Except String String :=
  (scanTplB (tpl.length + 1) tpl.data).foldlM
    (fun nid m => do
      match row.lookup m.1 with
      | none => .error ("ValueError: フィールド " ++ m.1 ++ " がデータに存在しません")
      | some v =>
          match m.2 with
          | some f => do
              let fv ← formatPy v f
              pure (strReplaceAll nid (tplMatchText m.1 m.2) fv)
          | none => pure (strReplaceAll nid (tplMatchText m.1 none) (pythonStr v)))
    tpl

/-- `DynamicGraphBuilder._generate_node_id`: `str(row[id_field])` when
`id_field` is declared, else template synthesis, else the builder's
ValueError. -/
def generateNodeId (ent : Entity) (row : Row) : Except String String :=
  match ent.idField with
  | some f =>
      match row.lookup f with
      | some v => .ok (pythonStr v)
      | none => .error ("KeyError: " ++ f)
  | none =>
      match ent.idTemplate with
      | some tpl => genIdFromTemplateB tpl row
      | none =>
          .error ("ValueError: エンティティ " ++ ent.name ++
            " にid_fieldまたはid_templateが必要です")

/-- `DynamicGraphBuilder._extract_properties`: declared properties are
read from the row (absent ones are skipped unless `required`), coerced
to the declared type (default string), stored under the alias when one
is declared and then additionally under the source name. -/
def extractProperties (ent : Entity) (row : Row) : Except String PropMap :=
  ent.properties.foldlM
    (fun props fd =>
      match row.lookup fd.1 with
      | none =>
          if fd.2.required then
            .error ("ValueError: 必須フィールド " ++ fd.1 ++ " がデータに存在しません")
          else .ok props
      | some v => do
          let pname := fd.2.aliasName.getD fd.1
          let cv ← convertValue v (fd.2.type.getD "string")
          let props := dictSet props pname cv
          pure (match fd.2.aliasName with
            | some _ => dictSet props fd.1 cv
            | none => props))
    []

/-- `DynamicGraphBuilder._load_entity` on already-read rows: per row
generate the node id, extract the properties, attach
`label = entity.name`, `add_node` (which on a duplicate id merges
instead of failing), and append the id to the entity's id list
regardless of duplication. -/
def loadEntity (ent : Entity) (rows : List Row) (g : Graph) :
    Except String (Graph × List String) :=
  match rows with
  | [] => .ok (g, [])
  | row :: rest => do
      let id ← generateNodeId ent row
      let props ← extractProperties ent row
      let res ← loadEntity ent rest
        (addNode g id (dictSet props "label" (.str ent.name)))
      .ok (res.1, id :: res.2)

/-- The builder's `_entity_node_map`: entity name → ordered node ids. -/
abbrev EntityMap := List (String × List String)

/-- Assignment into the entity map (`self._entity_node_map[name] = ids`). -/
def mapSet (m : EntityMap) (k : String) (v : List String) : EntityMap :=
  match m with
  | [] => [(k, v)]
  | e :: rest => if e.1 = k then (k, v) :: rest else e :: mapSet rest k v

/-- `DynamicGraphBuilder.get_nodes_by_entity`: the stored id list, or
the empty list for a name the builder never loaded. -/
def getNodesByEntity (m : EntityMap) (ename : String) : List String :=
  (m.lookup ename).getD []

/-- The entity-loading half of `build_graph`: load every entity in
declared order, recording its id list in the entity map. -/
def loadEntities : List (Entity × List Row) → Graph → EntityMap →
    Except String (Graph × EntityMap)
  | [], g, m => .ok (g, m)
  | (ent, rows) :: rest, g, m => do
      let res ← loadEntity ent rows g
      loadEntities rest res.1 (mapSet m ent.name res.2)

/-- The node ids of an entity in source-row order, as claim C8 reads
`get_nodes_by_entity`: one generated id per row, in row order. -/
def genIds (ent : Entity) : List Row → Except String (List String)
  | [] => .ok []
  | row :: rest => do
      let id ← generateNodeId ent row
      let ids ← genIds ent rest
      .ok (id :: ids)

/-! ### RuleEngine -/

/-- Is this value an `isinstance(v, (int, float))` number (bools are
ints in Python)? -/
def isNumV : Value → Bool
  | .int _ => true
  | .float _ => true
  | .bool _ => true
  | _ => false

/-- Round half to even on an exact rational. -/
def roundHalfEven (x : Rat) : Int :=
  let f := x.floor
  let r := x - f
  if r < 1 / 2 then f
  else if 1 / 2 < r then f + 1
  else if f % 2 == 0 then f
  else f + 1

/-- Python `round(value, ndigits)` on the program's numbers: ints and
bools pass through as ints, floats round to `ndigits` decimal digits
half-to-even on the exact rational (CPython's binary-float artifacts
around half-way cases are not modelled; no theorem relies on one, and
the rule documents never use a negative `ndigits`). -/
def pyRound (v : Value) (nd : Int) : Value :=
  match v with
  | .int n => .int n
  | .bool b => .int (if b then 1 else 0)
  | .float q =>
      if 0 ≤ nd then
        let scale : Rat := (10 : Rat) ^ nd.toNat
        .float ((roundHalfEven (q * scale) : Rat) / scale)
      else
        let scale : Rat := (10 : Rat) ^ (-nd).toNat
        .float ((roundHalfEven (q / scale) : Rat) * scale)
  | _ => v

/-- A property definition inside a rule document (`value` / `source` /
`expression`, optional `round`). -/
structure PropDef where
  value : Option Value
  source : Option String
  expression : Option String
  roundTo : Option Int
deriving Repr

/-- Always-absent property definition fields by default. -/
def PropDef.none' : PropDef := ⟨none, none, none, none⟩

/-- An edge definition inside a `derived_node` rule. -/
structure EdgeDef where
  fromRef : String
  toRef : String
  label : String
  properties : List (String × PropDef)
deriving Repr

/-- One rule of a rule-based enrichment (`condition` string, optional
`value` — the code indexes `rule["value"]` directly). -/
structure EnrichRule where
  condition : String
  value : Option Value
deriving Repr

/-- One enrichment of an `enrich_properties` rule. -/
structure Enrichment where
  property : String
  rules : Option (List EnrichRule)
  expression : Option String
  value : Option Value
  roundTo : Option Int
deriving Repr

/-- One aggregation of an `aggregation` rule (`field` defaults to the
empty string via `.get`). -/
structure AggDef where
  function : String
  field : String
  roundTo : Option Int
deriving Repr

/-- The fields of a `cross_link` rule the engine reads. -/
structure CrossLinkT where
  id : String
  from_entity : String
  to_entity : String
  link_label : String
  condition : CondDict
  properties : List (String × PropDef)

/-- The fields of a `derived_node` rule the engine reads. -/
structure DerivedNodeT where
  id : String
  output_entity : String
  source_entities : List (String × String)
  join_condition : CondDict
  node_id_template : String
  properties : List (String × PropDef)
  edges : List EdgeDef

/-- The fields of an `enrich_properties` rule the engine reads. -/
structure EnrichT where
  id : String
  target_entity : String
  enrichments : List Enrichment

/-- The fields of an `aggregation` rule the engine reads. -/
structure AggT where
  id : String
  output_entity : String
  group_by_entity : String
  aggregate_entity : String
  node_id_template : String
  aggregations : List (String × AggDef)
  properties : List (String × PropDef)
  edges : List EdgeDef

/-- A transformation document entry of one of the four supported
types. -/
inductive Trans where
  | cross_link (t : CrossLinkT)
  | derived_node (t : DerivedNodeT)
  | enrich_properties (t : EnrichT)
  | aggregation (t : AggT)

/-- The engine's mutable state: the graph and the evaluator's
aggregation cache (the entity map never changes after the build). -/
structure EngineState where
  graph : Graph
  cache : Cache
deriving Repr

/-- `RuleEngine._resolve_source`: split `"entity.field"`, answer
`.get(field)` on a dict context entry; a non-dict entry raises
(AttributeError), an unresolvable reference raises the code's
ValueError. -/
def resolveSource (src : String) (ctx : Ctx) : Except String Value :=
  match splitOnDot src with
  | [ent, fld] =>
      match ctx.lookup ent with
      | some (.dict d) => .ok (lookupD d fld .null)
      | some _ => .error ("AttributeError: no attribute get for " ++ src)
      | none => .error ("ValueError: ソース参照を解決できません: " ++ src)
  | _ => .error ("ValueError: ソース参照を解決できません: " ++ src)

/-- Try the engine's template regex `\{([^}:]+)(?::([^}]+))?\}` at
this position. -/
def tryTplE (s : List Char) : Option ((String × Option String) × List Char) :=
  match s with
  | '{' :: r =>
      let (w, r2) := r.span (fun c => c != '}' && c != ':')
      if w.isEmpty then none
      else
        match r2 with
        | '}' :: r3 => some ((String.mk w, none), r3)
        | ':' :: r4 =>
            let (f, r5) := r4.span (fun c => c != '}')
            if f.isEmpty then none
            else
              match r5 with
              | '}' :: r6 => some ((String.mk w, some (String.mk f)), r6)
              | _ => none
        | _ => none
  | _ => none

/-- All matches of the engine's template regex, left to right. -/
def scanTplE : Nat → List Char → List (String × Option String)
  | 0, _ => []
  | _, [] => []
  | fuel + 1, s =>
      match tryTplE s with
      | some (m, r) => m :: scanTplE fuel r
      | none =>
          match s with
          | [] => []
          | _ :: rest => scanTplE fuel rest

/-- `RuleEngine._generate_node_id_from_template`: placeholders resolve
through `_resolve_source` (errors propagate) and replace all
occurrences of their text, formatted when a format spec is given. -/
def generateNodeIdT (tpl : String) (ctx : Ctx) : Except String String :=
  (scanTplE (tpl.length + 1) tpl.data).foldlM
    (fun nid m => do
      let v ← resolveSource m.1 ctx
      match m.2 with
      | some f => do
          let fv ← formatPy v f
          pure (strReplaceAll nid (tplMatchText m.1 m.2) fv)
      | none => pure (strReplaceAll nid (tplMatchText m.1 none) (pythonStr v)))
    tpl

/-- `RuleEngine._resolve_node_reference`: `"new_node"` is the freshly
added node, an alias resolves through its bound `alias_node_id` entry,
and the sentinel `"facility"` scans the context for any dict carrying
`facility_id`; everything else is Python `None`. -/
def resolveNodeReference (ref : String) (current : String) (ctx : Ctx) :
    Option Value :=
  if ref == "new_node" then some (.str current)
  else
    match ctx.lookup (ref ++ "_node_id") with
    | some v => some v
    | none =>
        if ref == "facility" then
          ctx.findSome? (fun kv =>
            match kv.2 with
            | .dict d => d.lookup "facility_id"
            | _ => none)
        else none

/-- Truthiness of a resolved endpoint (`if from_node and to_node`):
Python `None` and falsy values such as the empty string fail it. -/
def truthyOptV : Option Value → Bool
  | none => false
  | some v => truthy v

/-- Edge properties of a derived edge: the label plus every `value`
property. -/
def edgePropsOf (eprops : List (String × PropDef)) (label : String) : PropMap :=
  eprops.foldl
    (fun acc pd =>
      match pd.2.value with
      | some v => dictSet acc pd.1 v
      | none => acc)
    [("label", .str label)]

/-- `RuleEngine._create_derived_edges`: resolve both endpoints of each
edge definition; when either is falsy the edge is skipped without any
error or warning, otherwise the edge is added (networkx creating
missing endpoint nodes silently). -/
def createDerivedEdges (nodeId : String) (eds : List EdgeDef) (ctx : Ctx)
    (g : Graph) : Graph :=
  match eds with
  | [] => g
  | ed :: rest =>
      let fromN := resolveNodeReference ed.fromRef nodeId ctx
      let toN := resolveNodeReference ed.toRef nodeId ctx
      let g :=
        if truthyOptV fromN && truthyOptV toN then
          addEdge g (pythonStr (fromN.getD .null)) (pythonStr (toN.getD .null))
            (edgePropsOf ed.properties ed.label)
        else g
      createDerivedEdges nodeId rest ctx g

/-- Apply a rule-level `round` post-processing and store the property
(`if "round" in def and isinstance(value, (int, float))`). -/
def applyRoundSet (props : PropMap) (pn : String) (roundTo : Option Int)
    (v : Value) : PropMap :=
  let v :=
    match roundTo with
    | some n => if isNumV v then pyRound v n else v
    | none => v
  dictSet props pn v

/-- The property loop of `_apply_derived_node`: each definition is
computed from `value` / `source` / `expression` in that order (none of
the three: silently skipped); a failing computation prints a warning
and skips just that property, keeping whatever the failed evaluation
had already cached. -/
def computeDerivedProps (g : Graph) (defs : List (String × PropDef))
    (ctx : Ctx) (init : PropMap) (c : Cache) : PropMap × Cache :=
  defs.foldl
    (fun acc pdef =>
      let (props, c) := acc
      let (pn, pd) := pdef
      match pd.value with
      | some v => (applyRoundSet props pn pd.roundTo v, c)
      | none =>
          match pd.source with
          | some s =>
              match resolveSource s ctx with
              | .ok v => (applyRoundSet props pn pd.roundTo v, c)
              | .error _ => (props, c)
          | none =>
              match pd.expression with
              | some e =>
                  match evaluate g c e ctx with
                  | (.ok v, c') => (applyRoundSet props pn pd.roundTo v, c')
                  | (.error _, c') => (props, c')
              | none => (props, c))
    (init, c)

/-- The candidate scan of `_find_matching_nodes` for one alias: first
candidate whose join condition evaluates true wins; condition failures
propagate (there is no `try` around the join evaluation). -/
def findMatchFor (g : Graph) (firstAlias : String) (firstData : PropMap)
    (jc : CondDict) (al : String) (matched : Ctx) :
    List String → Cache → Except String (Option (PropMap × String)) × Cache
  | [], c => (.ok none, c)
  | cand :: rest, c =>
      let cd := nodeProps g cand
      let ctx := dictUpdate [(firstAlias, .dict firstData), (al, .dict cd)] matched
      match evaluateCondition g c jc ctx with
      | (.error e, c') => (.error e, c')
      | (.ok true, c') => (.ok (some (cd, cand)), c')
      | (.ok false, c') => findMatchFor g firstAlias firstData jc al matched rest c'

/-- `RuleEngine._find_matching_nodes`: try to bind every non-first
alias, counting the bound ones; the caller compares the count against
`len(source_entities) - 1`. -/
def findMatchingAux (g : Graph) (firstAlias : String) (firstData : PropMap)
    (jc : CondDict) (entityNodes : List (String × List String)) :
    List (String × String) → Ctx → Nat → Cache →
    Except String (Ctx × Nat) × Cache
  | [], matched, count, c => (.ok (matched, count), c)
  | (al, _) :: rest, matched, count, c =>
      if al == firstAlias then
        findMatchingAux g firstAlias firstData jc entityNodes rest matched count c
      else
        let cands := (entityNodes.lookup al).getD []
        match findMatchFor g firstAlias firstData jc al matched cands c with
        | (.error e, c') => (.error e, c')
        | (.ok none, c') =>
            findMatchingAux g firstAlias firstData jc entityNodes rest matched count c'
        | (.ok (some (cd, cand)), c') =>
            let matched := dictSet matched al (.dict cd)
            let matched := dictSet matched (al ++ "_node_id") (.str cand)
            findMatchingAux g firstAlias firstData jc entityNodes rest matched
              (count + 1) c'

/-- The per-first-node loop of `_apply_derived_node`.  A tuple is used
only when every other alias was bound (`len(matched_entities) ==
len(source_entities) - 1`) *and* the matched dict is truthy — with a
single source entity the empty dict is falsy, so nothing is created. -/
def derivedLoop (t : DerivedNodeT) (entityNodes : List (String × List String))
    (firstAlias : String) :
    List String → EngineState → Except String EngineState
  | [], st => .ok st
  | fn :: rest, st =>
      let fd := nodeProps st.graph fn
      let ctx0 : Ctx := [(firstAlias, .dict fd), (firstAlias ++ "_node_id", .str fn)]
      match findMatchingAux st.graph firstAlias fd t.join_condition entityNodes
          t.source_entities [] 0 st.cache with
      | (.error e, _) => .error e
      | (.ok (matched, count), c') =>
          if count == t.source_entities.length - 1 && !matched.isEmpty then
            let ctx := dictUpdate ctx0 matched
            match generateNodeIdT t.node_id_template ctx with
            | .error e => .error e
            | .ok nodeId =>
                let pc := computeDerivedProps st.graph t.properties ctx
                  [("label", .str t.output_entity)] c'
                let g := addNode st.graph nodeId pc.1
                let g := createDerivedEdges nodeId t.edges ctx g
                derivedLoop t entityNodes firstAlias rest ⟨g, pc.2⟩
          else derivedLoop t entityNodes firstAlias rest ⟨st.graph, c'⟩

/-- `RuleEngine._apply_derived_node`: gather each alias's builder node
list, then run the tuple loop over the first alias's nodes (an empty
`source_entities` mapping would fail the code's `keys()[0]` access). -/
def applyDerivedNode (emap : EntityMap) (t : DerivedNodeT) (st : EngineState) :
    Except String EngineState :=
  let entityNodes := t.source_entities.map (fun ae => (ae.1, getNodesByEntity emap ae.2))
  match t.source_entities with
  | [] => .error "IndexError: list index out of range"
  | (firstAlias, _) :: _ =>
      derivedLoop t entityNodes firstAlias
        ((entityNodes.lookup firstAlias).getD []) st

/-- Edge properties of a `cross_link` match: label, then each property
from its `value` or evaluated `expression` (no catch: evaluation
failures abort the rule). -/
def crossLinkProps (g : Graph) (defs : List (String × PropDef)) (ctx : Ctx)
    (init : PropMap) (c : Cache) : Except String (PropMap × Cache) :=
  match defs with
  | [] => .ok (init, c)
  | (pn, pd) :: rest =>
      match pd.value with
      | some v => crossLinkProps g rest ctx (dictSet init pn v) c
      | none =>
          match pd.expression with
          | some e =>
              match evaluate g c e ctx with
              | (.ok v, c') => crossLinkProps g rest ctx (dictSet init pn v) c'
              | (.error err, _) => .error err
          | none => crossLinkProps g rest ctx init c

/-- Inner (to-node) loop of `_apply_cross_link`. -/
def crossLinkInner (t : CrossLinkT) (fromNode : String) (fromData : PropMap) :
    List String → EngineState → Except String EngineState
  | [], st => .ok st
  | tn :: rest, st =>
      let td := nodeProps st.graph tn
      let ctx : Ctx := [("from", .dict fromData), ("to", .dict td)]
      match evaluateCondition st.graph st.cache t.condition ctx with
      | (.error e, _) => .error e
      | (.ok false, c') => crossLinkInner t fromNode fromData rest ⟨st.graph, c'⟩
      | (.ok true, c') =>
          match crossLinkProps st.graph t.properties ctx
              [("label", .str t.link_label)] c' with
          | .error e => .error e
          | .ok (eprops, c'') =>
              crossLinkInner t fromNode fromData rest
                ⟨addEdge st.graph fromNode tn eprops, c''⟩

/-- Outer (from-node) loop of `_apply_cross_link`. -/
def crossLinkOuter (emap : EntityMap) (t : CrossLinkT) :
    List String → EngineState → Except String EngineState
  | [], st => .ok st
  | fn :: rest, st => do
      let st' ← crossLinkInner t fn (nodeProps st.graph fn)
        (getNodesByEntity emap t.to_entity) st
      crossLinkOuter emap t rest st'

/-- `RuleEngine._apply_cross_link`: for every ordered pair of builder
nodes of the two entities, evaluate the condition against
`{from, to}` and add a labelled edge on a match. -/
def applyCrossLink (emap : EntityMap) (t : CrossLinkT) (st : EngineState) :
    Except String EngineState :=
  crossLinkOuter emap t (getNodesByEntity emap t.from_entity) st

/-- `RuleEngine._evaluate_rules`: first rule whose condition is the
literal string `"true"` or evaluates truthy supplies its value;
evaluation failures are warned and skipped; no match yields Python
`None`.  A truthy-matching rule without a `value` key raises KeyError
inside the `try` (caught: the loop continues), while the `"true"`
literal's missing `value` raises outside it. -/
def evaluateRules (rs : List EnrichRule) (g : Graph) (c : Cache) (ctx : Ctx) :
    Except String Value × Cache :=
  match rs with
  | [] => (.ok .null, c)
  | r :: rest =>
      if r.condition == "true" then
        match r.value with
        | some v => (.ok v, c)
        | none => (.error "KeyError: value", c)
      else
        match evaluate g c r.condition ctx with
        | (.ok v, c') =>
            if truthy v then
              match r.value with
              | some w => (.ok w, c')
              | none => evaluateRules rest g c' ctx
            else evaluateRules rest g c' ctx
        | (.error _, c') => evaluateRules rest g c' ctx

/-- Set one property on one node in place
(`self.graph.nodes[node_id][prop_name] = value`). -/
def setNodeProp (g : Graph) (id pn : String) (v : Value) : Graph :=
  { g with nodes := g.nodes.map (updEntry id (fun pm => dictSet pm pn v)) }

/-- The precomputation step of `_apply_enrich_properties`: enrichment
expressions containing `"avg("` or `"sum("` — only those two substrings
are tested — are evaluated before the node loop against the empty
context; a failure here is uncaught and aborts the rule. -/
def precomputeEnrich (g : Graph) (enrichments : List Enrichment) (c : Cache) :
    Except String (List (String × Value) × Cache) :=
  match enrichments with
  | [] => .ok ([], c)
  | e :: rest =>
      match e.expression with
      | some ex =>
          if containsSubstr ex "avg(" || containsSubstr ex "sum(" then
            match evaluate g c ex [] with
            | (.ok v, c') => do
                let res ← precomputeEnrich g rest c'
                .ok (dictSet res.1 e.property v, res.2)
            | (.error err, _) => .error err
          else precomputeEnrich g rest c
      | none => precomputeEnrich g rest c

/-- One node's enrichment loop: the context is `{"node": live node
props}` updated with the precomputed constants; each enrichment takes
its value from `rules` / `expression` (precomputed value preferred) /
`value` in that order, applies `round`, and writes the property; any
failure warns and skips just that enrichment. -/
def enrichNodeStep (pre : List (String × Value)) (nodeId : String) :
    List Enrichment → Graph → Cache → Graph × Cache
  | [], g, c => (g, c)
  | e :: rest, g, c =>
      let ctx := dictUpdate [("node", .dict (nodeProps g nodeId))] pre
      let step : Except String (Option Value) × Cache :=
        match e.rules with
        | some rs =>
            match evaluateRules rs g c ctx with
            | (.ok v, c') => (.ok (some v), c')
            | (.error err, c') => (.error err, c')
        | none =>
            match e.expression with
            | some ex =>
                match pre.lookup e.property with
                | some v => (.ok (some v), c)
                | none =>
                    match evaluate g c ex ctx with
                    | (.ok v, c') => (.ok (some v), c')
                    | (.error err, c') => (.error err, c')
            | none =>
                match e.value with
                | some v => (.ok (some v), c)
                | none => (.ok none, c)
      match step with
      | (.error _, c') => enrichNodeStep pre nodeId rest g c'
      | (.ok none, c') => enrichNodeStep pre nodeId rest g c'
      | (.ok (some v), c') =>
          let v :=
            match e.roundTo with
            | some n => if isNumV v then pyRound v n else v
            | none => v
          enrichNodeStep pre nodeId rest (setNodeProp g nodeId e.property v) c'

/-- The target-node loop of `_apply_enrich_properties`. -/
def enrichNodesLoop (pre : List (String × Value)) (enrichments : List Enrichment) :
    List String → Graph → Cache → Graph × Cache
  | [], g, c => (g, c)
  | id :: rest, g, c =>
      let gc := enrichNodeStep pre id enrichments g c
      enrichNodesLoop pre enrichments rest gc.1 gc.2

/-- `RuleEngine._apply_enrich_properties`: targets are read from the
graph by label (not from the builder map), the aggregation cache is
cleared, aggregation-bearing expressions are precomputed, then every
target node is enriched. -/
def applyEnrichProperties (t : EnrichT) (st : EngineState) :
    Except String EngineState := do
  let targets := (nodesWithLabel st.graph t.target_entity).map (fun nd => nd.1)
  let res ← precomputeEnrich st.graph t.enrichments []
  let gc := enrichNodesLoop res.1 t.enrichments targets st.graph res.2
  .ok ⟨gc.1, gc.2⟩

/-- One aggregation value of `_apply_aggregation`: `count` counts the
member nodes; otherwise the member values of `field` (absent fields
skipped, null values included) are reduced — the unlisted functions,
`stddev` among them, fall to the `else: value = 0` branch. -/
def aggValueOf (g : Graph) (aggNodes : List String) (ad : AggDef) :
    Except String Value :=
  if ad.function == "count" then .ok (.int aggNodes.length)
  else
    let values := aggNodes.filterMap (fun n => (nodeProps g n).lookup ad.field)
    if values.isEmpty then .ok (.int 0)
    else if ad.function == "avg" then do
      let s ← pySumL values
      pyArith "/" s (.int values.length)
    else if ad.function == "sum" then pySumL values
    else if ad.function == "max" then pyMaxL values
    else if ad.function == "min" then pyMinL values
    else .ok (.int 0)

/-- All aggregation values of one group, with `round` post-processing. -/
def computeAggValues (g : Graph) (aggNodes : List String) :
    List (String × AggDef) → Except String PropMap
  | [] => .ok []
  | (an, ad) :: rest => do
      let v ← aggValueOf g aggNodes ad
      let v :=
        match ad.roundTo with
        | some n => if isNumV v then pyRound v n else v
        | none => v
      let res ← computeAggValues g aggNodes rest
      .ok (dictSet res an v)

/-- The group loop of `_apply_aggregation`: members are the group
node's graph successors bearing the aggregate label; empty groups are
skipped; the summary node gets the aggregate values and resolved
properties, and the two recognized edge shapes are emitted. -/
def applyAggLoop (t : AggT) : List String → EngineState →
    Except String EngineState
  | [], st => .ok st
  | gn :: rest, st =>
      let gd := nodeProps st.graph gn
      let aggNodes := (successorsOf st.graph gn).filter (fun s =>
        pyEq (lookupD (nodeProps st.graph s) "label" .null) (.str t.aggregate_entity))
      if aggNodes.isEmpty then applyAggLoop t rest st
      else
        match computeAggValues st.graph aggNodes t.aggregations with
        | .error e => .error e
        | .ok aggValues =>
            let ctx := dictUpdate [("facility", .dict gd)] aggValues
            match generateNodeIdT t.node_id_template ctx with
            | .error e => .error e
            | .ok nodeId =>
                let props := dictUpdate [("label", .str t.output_entity)] aggValues
                match t.properties.foldlM
                    (fun acc pdef =>
                      match pdef.2.value with
                      | some v => Except.ok (dictSet acc pdef.1 v)
                      | none =>
                          match pdef.2.source with
                          | some s => do
                              let v ← resolveSource s ctx
                              Except.ok (dictSet acc pdef.1 v)
                          | none => Except.ok acc)
                    props with
                | .error e => .error e
                | .ok props =>
                    let g := addNode st.graph nodeId props
                    let g := t.edges.foldl
                      (fun g ed =>
                        if ed.fromRef == "facility" && ed.toRef == "new_node" then
                          addEdge g gn nodeId [("label", .str ed.label)]
                        else if ed.fromRef == "new_node" && ed.toRef == "aggregated_nodes" then
                          aggNodes.foldl
                            (fun g an => addEdge g nodeId an [("label", .str ed.label)]) g
                        else g)
                      g
                    applyAggLoop t rest ⟨g, st.cache⟩

/-- `RuleEngine._apply_aggregation`. -/
def applyAggregation (emap : EntityMap) (t : AggT) (st : EngineState) :
    Except String EngineState :=
  applyAggLoop t (getNodesByEntity emap t.group_by_entity) st

/-- Dispatch of `apply_transformations` over the four rule types. -/
def applyTransformation (emap : EntityMap) (t : Trans) (st : EngineState) :
    Except String EngineState :=
  match t with
  | .cross_link d => applyCrossLink emap d st
  | .derived_node d => applyDerivedNode emap d st
  | .enrich_properties d => applyEnrichProperties d st
  | .aggregation d => applyAggregation emap d st

/-- `RuleEngine.apply_transformations`: apply every rule in declared
order; the aggregation cache is carried from rule to rule unchanged —
nothing in this loop clears it. -/
def applyTransformations (emap : EntityMap) :
    List Trans → EngineState → Except String EngineState
  | [], st => .ok st
  | t :: rest, st => do
      let st' ← applyTransformation emap t st
      applyTransformations emap rest st'

/-- The engine loop as claim C3 reads: the aggregation cache is
cleared between every pair of consecutively applied rules.  Written
from the claim's words for comparison with `applyTransformations`. -/
def applyTransformationsClaimC3 (emap : EntityMap) :
    List Trans → EngineState → Except String EngineState
  | [], st => .ok st
  | t :: rest, st => do
      let st' ← applyTransformation emap t ⟨st.graph, []⟩
      applyTransformationsClaimC3 emap rest st'

/-- The precomputation step as claim C7 reads: an enrichment
expression containing a call of *any* of the six aggregation functions
(detected syntactically) is evaluated before the node loop against the
empty context.  Written from the claim's words for comparison with
`precomputeEnrich`. -/
def precomputeEnrichClaimC7 (g : Graph) (enrichments : List Enrichment)
    (c : Cache) : Except String (List (String × Value) × Cache) :=
  match enrichments with
  | [] => .ok ([], c)
  | e :: rest =>
      match e.expression with
      | some ex =>
          if aggFns.any (fun fn => containsSubstr ex (fn ++ "(")) then
            match evaluate g c ex [] with
            | (.ok v, c') => do
                let res ← precomputeEnrichClaimC7 g rest c'
                .ok (dictSet res.1 e.property v, res.2)
            | (.error err, _) => .error err
          else precomputeEnrichClaimC7 g rest c
      | none => precomputeEnrichClaimC7 g rest c

/-- `_apply_enrich_properties` as claim C7 reads, differing from the
code only in which expressions are precomputed. -/
def applyEnrichPropertiesClaimC7 (t : EnrichT) (st : EngineState) :
    Except String EngineState := do
  let targets := (nodesWithLabel st.graph t.target_entity).map (fun nd => nd.1)
  let res ← precomputeEnrichClaimC7 st.graph t.enrichments []
  let gc := enrichNodesLoop res.1 t.enrichments targets st.graph res.2
  .ok ⟨gc.1, gc.2⟩

/-! ### Concrete scenario data consumed by the claim theorems -/

/-- A graph whose single `E`-labelled node carries a null `f`. -/
def nullFieldGraph : Graph :=
  ⟨[("n1", [("label", .str "E"), ("f", .null)])], []⟩

/-- Base graph of the cache scenario: one `A` node and one `B` node
sharing `k = 1`. -/
def cacheGraph : Graph :=
  ⟨[("a1", [("label", .str "A"), ("k", .int 1)]),
    ("b1", [("label", .str "B"), ("k", .int 1)])], []⟩

/-- Builder map of the cache scenario. -/
def cacheEmap : EntityMap := [("A", ["a1"]), ("B", ["b1"])]

/-- `derived_node` rule of the cache scenario: joins `A` and `B` on
`k`, derives an `E` node whose `f` evaluates `sum(E.f) + 5` (caching
`sum_E_f = 0` while no `E` node exists yet). -/
def cacheRule1 : Trans :=
  .derived_node ⟨"t1", "E", [("a", "A"), ("b", "B")],
    .mk none [] (some "expression") none none (some "a.k == b.k") none none,
    "E_\x7ba.k\x7d", [("f", ⟨none, none, some "sum(E.f) + 5", none⟩)], []⟩

/-- `cross_link` rule of the cache scenario: links `A` to `A` whenever
`sum(E.f) == 0` — true only through the stale cache entry. -/
def cacheRule2 : Trans :=
  .cross_link ⟨"t2", "A", "A", "L",
    .mk none [] (some "expression") none none (some "sum(E.f) == 0") none none, []⟩

/-- Two `E` nodes with `f = 1` (precomputation scenario). -/
def enrichGraph : Graph :=
  ⟨[("n1", [("label", .str "E"), ("f", .int 1)]),
    ("n2", [("label", .str "E"), ("f", .int 1)])], []⟩

/-- Enrichment rule of the precomputation scenario: first set `f` to
100 on every node, then store `max(E.f)` into `m`.  Under the claim's
precomputation `m` would be the before-loop value 1; the code computes
it inside the loop and gets 100. -/
def enrichRule : EnrichT :=
  ⟨"t7", "E",
    [⟨"f", none, none, some (.int 100), none⟩,
     ⟨"m", none, some "max(E.f)", none, none⟩]⟩

/-- A graph with one `E` node (rule-based enrichment scenario). -/
def rulesGraph : Graph :=
  ⟨[("n1", [("label", .str "E"), ("x", .int 1)])], []⟩

/-- Enrichment whose single rule has the never-true condition
`"0 > 1"` and no `"true"` fallback. -/
def rulesEnrich : EnrichT :=
  ⟨"t9", "E", [⟨"p", some [⟨"0 > 1", some (.str "X")⟩], none, none, none⟩]⟩

/-- The entity of the duplicate-id scenario: `id_field = aid`, one
integer property `x`. -/
def dupEntity : Entity :=
  ⟨"E", some "aid", none, [("x", ⟨some "integer", none, false⟩)]⟩

/-- Two source rows carrying the same id `a` with different `x`. -/
def dupRow1 : Row := [("aid", .str "a"), ("x", .int 1)]

/-- Second row of the duplicate-id scenario. -/
def dupRow2 : Row := [("aid", .str "a"), ("x", .int 2)]

/-- A two-node graph with integer `f` values 2 and 4 (aggregation
witness scenario). -/
def intFieldGraph : Graph :=
  ⟨[("n1", [("label", .str "E"), ("f", .int 2)]),
    ("n2", [("label", .str "E"), ("f", .int 4)])], []⟩

/-- A two-node graph with integer `f` values 2 and 3, whose mean 5/2
is not integral (aggregation witness scenario). -/
def oddFieldGraph : Graph :=
  ⟨[("m1", [("label", .str "E"), ("f", .int 2)]),
    ("m2", [("label", .str "E"), ("f", .int 3)])], []⟩

/-- Context of the derived-edge scenario: alias `a` bound with its
node id, nothing else. -/
def edgeCtx : Ctx := [("a", .dict [("x", .int 1)]), ("a_node_id", .str "a1")]

/-- Graph of the derived-edge scenario. -/
def edgeGraph : Graph := ⟨[("a1", []), ("NEW", [])], []⟩

/-- The condition dictionary `{type: field_match, from_field: aid,
to_field: aid}` exactly as claim C4 writes it. -/
def fieldMatchCond : CondDict :=
  .mk none [] (some "field_match") none none none (some "aid") (some "aid")

/-! ## Shared lemmas -/

/-- Writing a key makes it readable. -/
theorem lookup_dictSet_self (m : PropMap) (k : String) (v : Value) :
    (dictSet m k v).lookup k = some v := by
  induction m with
  | nil => simp [dictSet]
  | cons kv rest ih =>
      obtain ⟨k', v'⟩ := kv
      by_cases h : k' = k
      · subst h
        simp [dictSet, List.lookup]
      · have hb : (k == k') = false := by
          simp [beq_eq_false_iff_ne, Ne.symm h]
        simp [dictSet, h, List.lookup, hb, ih]

/-- Writing one key leaves the others unchanged. -/
theorem lookup_dictSet_ne (m : PropMap) (k k' : String) (v : Value)
    (h : k' ≠ k) : (dictSet m k v).lookup k' = m.lookup k' := by
  have hb : (k' == k) = false := by simp [beq_eq_false_iff_ne, h]
  induction m with
  | nil => simp [dictSet, List.lookup, hb]
  | cons kv rest ih =>
      obtain ⟨k'', v''⟩ := kv
      by_cases hk : k'' = k
      · subst hk
        simp [dictSet, List.lookup, hb]
      · simp only [dictSet, hk, if_false, List.lookup]
        cases hkk : (k' == k'') <;> simp [ih]

/-- Lookup across the in-place node update used by `addNode` and
`setNodeProp`: the looked-up id's first property map goes through `f`,
everything else is untouched. -/
theorem lookup_map_update (l : List (String × PropMap)) (id : String)
    (f : PropMap → PropMap) :
    (l.map (updEntry id f)).lookup id = (l.lookup id).map f := by
  have hu1 : ∀ (y : String) (pm : PropMap), updEntry y f (y, pm) = (y, f pm) :=
    fun y pm => by simp [updEntry]
  induction l with
  | nil => simp
  | cons nd rest ih =>
      obtain ⟨k, pm⟩ := nd
      by_cases h : k = id
      · subst h
        rw [List.map_cons, hu1]
        simp [List.lookup]
      · have hu : updEntry id f (k, pm) = (k, pm) := by simp [updEntry, h]
        have hb : (id == k) = false := by
          simp [beq_eq_false_iff_ne, Ne.symm h]
        rw [List.map_cons, hu]
        simp [List.lookup, hb, ih]

/-- The in-place node update leaves other ids' lookups unchanged. -/
theorem lookup_map_update_ne (l : List (String × PropMap)) (id id' : String)
    (f : PropMap → PropMap) (h : id' ≠ id) :
    (l.map (updEntry id f)).lookup id' = l.lookup id' := by
  have hu1 : ∀ (y : String) (pm : PropMap), updEntry y f (y, pm) = (y, f pm) :=
    fun y pm => by simp [updEntry]
  induction l with
  | nil => simp
  | cons nd rest ih =>
      obtain ⟨k, pm⟩ := nd
      by_cases hk : k = id
      · subst hk
        have hb : (id' == k) = false := by simp [beq_eq_false_iff_ne, h]
        rw [List.map_cons, hu1]
        simp [List.lookup, hb, ih]
      · have hu : updEntry id f (k, pm) = (k, pm) := by simp [updEntry, hk]
        rw [List.map_cons, hu]
        simp only [List.lookup]
        cases hkk : (id' == k) <;> simp [ih]

/-- Bind of a succeeded `Except`. -/
theorem exbind_ok {α β : Type} (a : α) (f : α → Except String β) :
    (Except.ok a >>= f) = f a := rfl

/-- Bind of a failed `Except`. -/
theorem exbind_error {α β : Type} (e : String) (f : α → Except String β) :
    ((Except.error e : Except String α) >>= f) = .error e := rfl

/-- Assignment into the entity map makes the entry readable. -/
theorem lookup_mapSet (m : EntityMap) (k : String) (v : List String) :
    (mapSet m k v).lookup k = some v := by
  induction m with
  | nil => simp [mapSet]
  | cons kv rest ih =>
      obtain ⟨k2, v2⟩ := kv
      by_cases h : k2 = k
      · subst h
        simp [mapSet, List.lookup]
      · have hb : (k == k2) = false := by
          simp [beq_eq_false_iff_ne, Ne.symm h]
        simp [mapSet, h, List.lookup, hb, ih]

/-! ## Claim C1 -/

/-- C1, counterexample.  The claim says the evaluator evaluates only
the closed grammar of §4.4 and that no identifier resolves outside the
provided context.  The code hands the string to the host language's
`eval` with `globals = {"__builtins__": {}}`: on the bare identifier
`__builtins__` — not a §4.4 expression, absent from the (empty)
context — evaluation nevertheless succeeds and returns the empty
builtins dict installed by the evaluator itself. -/
theorem c1_counterexample :
    evaluate Graph.empty [] "__builtins__" [] = (.ok (.dict []), []) ∧
    ([] : Ctx).lookup "__builtins__" = none :=
  ⟨rfl, rfl⟩

/-- C1, amended: expressions are evaluated by the host language's
`eval` over locals = the provided context and globals = a mapping
holding only `__builtins__ ↦ {}`; an identifier therefore resolves to
its context entry when there is one, the identifier `__builtins__`
resolves to the empty dict, and every other identifier fails with
`NameError` — in particular no builtin function is reachable by
name. -/
theorem c1_amended (env : Ctx) (n : String) :
    (∀ v, env.lookup n = some v → evalP env (.name n) = .ok v) ∧
    (env.lookup n = none → n = "__builtins__" →
      evalP env (.name n) = .ok (.dict [])) ∧
    (env.lookup n = none → n ≠ "__builtins__" →
      evalP env (.name n) = .error (nameError n)) := by
  refine ⟨fun v hv => ?_, fun h1 h2 => ?_, fun h1 h2 => ?_⟩
  · simp [evalP, hv]
  · subst h2
    simp [evalP, h1]
  · simp [evalP, h1, h2]

/-- C1 amended, witness: the identifier `zzz` is unbound in the empty
context and is not `__builtins__`, so its evaluation fails. -/
theorem c1_amended_witness :
    ([] : Ctx).lookup "zzz" = none ∧
    evalP [] (.name "zzz") = .error (nameError "zzz") :=
  ⟨rfl, (c1_amended [] "zzz").2.2 rfl (by decide)⟩

/-! ## Claim C2 -/

/-- C2, counterexample.  The claim says a division by zero yields
null.  The code's `eval` raises `ZeroDivisionError`, which
`ExpressionEvaluator.evaluate` catches and re-raises as `ValueError`:
the expression `1 / 0` produces an error, not null. -/
theorem c2_counterexample :
    (evaluate Graph.empty [] "1 / 0" []).1 =
      .error "ValueError: 式の評価に失敗: 1 / 0, エラー: ZeroDivisionError: division by zero" :=
  rfl

/-- C2, amended: an evaluation that reaches a division whose divisor
is zero raises (the evaluator wraps it in its ValueError); it never
returns null.  Callers that guard property computation — here the
`derived_node` property loop — catch the error and skip the property
rather than storing null. -/
theorem c2_amended :
    (∀ (env : Ctx) (a b : PExpr) (v : Value), evalP env a = .ok v →
      (numQ v).isSome → evalP env b = .ok (.int 0) →
      evalP env (.binop "/" a b) = .error "ZeroDivisionError: division by zero") ∧
    (∀ (g : Graph) (c : Cache) (ctx : Ctx),
      (evaluate g c "1 / 0" ctx).1 =
        .error "ValueError: 式の評価に失敗: 1 / 0, エラー: ZeroDivisionError: division by zero") ∧
    (∀ (g : Graph) (c : Cache) (ctx : Ctx) (pn : String),
      computeDerivedProps g [(pn, ⟨none, none, some "1 / 0", none⟩)] ctx [] c
        = ([], c)) := by
  refine ⟨fun env a b v ha hv hb => ?_, fun g c ctx => rfl, fun g c ctx pn => rfl⟩
  obtain ⟨x, hx⟩ := Option.isSome_iff_exists.mp hv
  have step : evalP env (.binop "/" a b) = pyArith "/" v (.int 0) := by
    show (do
        let va ← evalP env a
        let vb ← evalP env b
        pyArith "/" va vb) = pyArith "/" v (.int 0)
    rw [ha, hb]
    rfl
  rw [step]
  have hi0 : intView (Value.int 0) = some 0 := rfl
  have h0 : numQ (Value.int 0) = some 0 := rfl
  cases hiv : intView v with
  | some m => simp [pyArith, hiv, hi0]
  | none => simp [pyArith, hiv, hi0, hx, h0]

/-- C2 amended, witness: `1 / 0` at the AST level raises
`ZeroDivisionError`. -/
theorem c2_amended_witness :
    evalP [] (.binop "/" (.lit (.int 1)) (.lit (.int 0)))
      = .error "ZeroDivisionError: division by zero" :=
  c2_amended.1 [] (.lit (.int 1)) (.lit (.int 0)) (.int 1) rfl rfl rfl

/-! ## Claim C3 -/

/-- C3, counterexample.  The claim says the aggregation cache is
cleared between every pair of consecutively applied rules, so that the
next rule reflects nodes the previous rule added.  In the code only
`_apply_enrich_properties` ever clears the cache.  Concretely: rule
`cacheRule1` (a `derived_node`) caches `sum(E.f) = 0` while deriving an
`E` node with `f = 5`; the immediately following `cacheRule2` (a
`cross_link` guarded by `sum(E.f) == 0`) still sees the stale `0` and
adds its edge, whereas under the claim's clear-between-rules semantics
(`applyTransformationsClaimC3`) the refreshed sum is `5` and no edge is
added. -/
theorem c3_counterexample :
    (applyTransformations cacheEmap [cacheRule1, cacheRule2]
        ⟨cacheGraph, []⟩).map (fun st => (st.graph.edges.length, st.cache))
      = .ok (1, [("sum_E_f", .int 0)]) ∧
    (applyTransformationsClaimC3 cacheEmap [cacheRule1, cacheRule2]
        ⟨cacheGraph, []⟩).map (fun st => (st.graph.edges.length, st.cache))
      = .ok (0, [("sum_E_f", .int 5)]) :=
  ⟨rfl, rfl⟩

/-- C3, amended: the cache is rule-scoped only in the weaker sense
that (a) within one rule a second evaluation of the same
`(function, entity, field)` aggregation returns the same cached value
— even against a mutated graph — and (b) an `enrich_properties` rule
clears the cache on entry, so *it* observes nodes added by its
predecessors.  Between other consecutive rules the cache is carried
over unchanged, so a later `cross_link`/`derived_node`/`aggregation`
rule can observe a stale aggregate (see the counterexample). -/
theorem c3_amended :
    (∀ (g : Graph) (c : Cache) (fn ent fld : String) (v : Value) (c' : Cache),
      evaluateAggregation g c fn ent fld = (.ok v, c') →
      ∀ g₂ : Graph, evaluateAggregation g₂ c' fn ent fld = (.ok v, c')) ∧
    (∀ (t : EnrichT) (st : EngineState),
      applyEnrichProperties t st = applyEnrichProperties t ⟨st.graph, []⟩) := by
  constructor
  · intro g c fn ent fld v c' h g₂
    have hc : c'.lookup (aggCacheKey fn ent fld) = some v := by
      unfold evaluateAggregation at h
      cases hl : c.lookup (aggCacheKey fn ent fld) with
      | some w =>
          rw [hl] at h
          have hv : Except.ok w = Except.ok v := congrArg Prod.fst h
          have hc2 : c = c' := congrArg Prod.snd h
          cases hv
          rw [← hc2, hl]
      | none =>
          rw [hl] at h
          by_cases hge : g.nodes.isEmpty
          · rw [if_pos hge] at h
            exact absurd (congrArg Prod.fst h) (by simp)
          · rw [if_neg hge] at h
            cases hres : aggCompute g fn ent fld with
            | ok w =>
                rw [hres] at h
                have hv : Except.ok w = Except.ok v := congrArg Prod.fst h
                have hc2 : dictSet c (aggCacheKey fn ent fld) w = c' :=
                  congrArg Prod.snd h
                cases hv
                rw [← hc2]
                exact lookup_dictSet_self ..
            | error e =>
                rw [hres] at h
                exact absurd (congrArg Prod.fst h) (by simp)
    unfold evaluateAggregation
    rw [hc]
  · intro t st
    rfl

/-- C3 amended, witness: a first evaluation of `sum(E.f)` over a graph
with one `E` node with `f = 2` caches and returns 2; re-evaluating
against a graph that meanwhile gained `E` nodes still returns 2. -/
theorem c3_amended_witness :
    evaluateAggregation ⟨[("n1", [("label", .str "E"), ("f", .int 2)])], []⟩
        [] "sum" "E" "f" = (.ok (.int 2), [("sum_E_f", .int 2)]) ∧
    evaluateAggregation intFieldGraph [("sum_E_f", .int 2)] "sum" "E" "f"
      = (.ok (.int 2), [("sum_E_f", .int 2)]) :=
  ⟨rfl,
    c3_amended.1 ⟨[("n1", [("label", .str "E"), ("f", .int 2)])], []⟩ []
      "sum" "E" "f" (.int 2) [("sum_E_f", .int 2)] rfl intFieldGraph⟩

/-! ## Claim C4 -/

/-- C4, counterexample.  The claim says a `{type: "field_match",
from_field, to_field}` condition evaluates to field equality both in
the builder and in the rule engine.  The builder's
`_evaluate_join_condition` does; the rule engine's
`evaluate_condition` reads `condition["from_expression"]` and raises
`KeyError` on the very same condition document, even with equal field
values on both sides. -/
theorem c4_counterexample :
    (evaluateCondition Graph.empty [] fieldMatchCond
        [("from", .dict [("aid", .int 1)]), ("to", .dict [("aid", .int 1)])]).1
      = .error "KeyError: from_expression" ∧
    evaluateJoinCondition fieldMatchCond [("aid", .int 1)] [("aid", .int 1)]
      = true :=
  ⟨rfl, rfl⟩

/-- C4, amended: the builder's join evaluation returns true exactly
when the two `.get`-looked-up field values are Python-equal (missing
fields read as `None`); the rule engine's `evaluate_condition` instead
requires `from_expression`/`to_expression` on a `field_match` and
fails with `KeyError: from_expression` on the
`from_field`/`to_field` form, whatever the context holds. -/
theorem c4_amended :
    (∀ (cond : CondDict) (f t : String) (fromData toData : PropMap),
      cond.fromFieldOf = some f → cond.toFieldOf = some t →
      f ≠ "" → t ≠ "" →
      (evaluateJoinCondition cond fromData toData = true ↔
        pyEq (lookupD fromData f .null) (lookupD toData t .null) = true)) ∧
    (∀ (g : Graph) (c : Cache) (ctx : Ctx) (conds : List CondDict)
        (F T : Option String),
      evaluateCondition g c (.mk none conds (some "field_match") none none none F T) ctx
        = (.error "KeyError: from_expression", c)) := by
  constructor
  · intro cond f t fd td hf ht hfne htne
    unfold evaluateJoinCondition
    rw [hf, ht]
    have h1 : (f != "") = true := by simp [bne_iff_ne, hfne]
    have h2 : (t != "") = true := by simp [bne_iff_ne, htne]
    simp [h1, h2]
  · intro g c ctx conds F T
    rfl

/-- C4 amended, witness: the builder evaluation on equal `aid` fields
reduces to their Python equality, and the engine's `field_match` with
only field names fails. -/
theorem c4_amended_witness :
    (evaluateJoinCondition fieldMatchCond [("aid", .int 1)] [("aid", .int 1)] = true ↔
      pyEq (lookupD [("aid", .int 1)] "aid" .null)
        (lookupD [("aid", .int 1)] "aid" .null) = true) ∧
    evaluateCondition Graph.empty []
        (.mk none [] (some "field_match") none none none (some "x") (some "y")) []
      = (.error "KeyError: from_expression", []) :=
  ⟨c4_amended.1 fieldMatchCond "aid" "aid" [("aid", .int 1)] [("aid", .int 1)]
      rfl rfl (by decide) (by decide),
   c4_amended.2 Graph.empty [] [] [] (some "x") (some "y")⟩

/-! ## Claim C5 -/

/-- C5, counterexample.  The claim says adding a node whose id already
exists fails with `DuplicateNode` and leaves the existing node
unchanged.  Loading two rows with the same id `a` does not fail,
overwrites the existing node's colliding properties (`x` becomes 2),
creates no second node, and appends the id to the entity list twice. -/
theorem c5_counterexample :
    loadEntity dupEntity [dupRow1, dupRow2] Graph.empty =
      .ok (⟨[("a", [("x", .int 2), ("label", .str "E")])], []⟩, ["a", "a"]) :=
  rfl

/-- C5, amended: `add_node` (networkx) never fails.  On an existing id
it keeps the node count and updates the existing node's property map
in place (colliding keys overwritten, new keys appended); on a fresh
id it appends the node.  During entity loading the id is appended to
the entity's id list either way (see the counterexample). -/
theorem c5_amended (g : Graph) (id : String) (props : PropMap) :
    ((g.nodes.lookup id).isSome →
      (addNode g id props).nodes.length = g.nodes.length ∧
      ∀ old, g.nodes.lookup id = some old →
        (addNode g id props).nodes.lookup id = some (dictUpdate old props)) ∧
    (g.nodes.lookup id = none →
      (addNode g id props).nodes = g.nodes ++ [(id, props)]) := by
  constructor
  · intro hs
    refine ⟨by simp [addNode, hs], fun old hold => ?_⟩
    simp [addNode, hs, lookup_map_update, hold]
  · intro hn
    simp [addNode, hn]

/-- C5 amended, witness: updating the existing node `n1` of
`rulesGraph` keeps one node and merges the maps; adding a fresh `b`
appends it. -/
theorem c5_amended_witness :
    ((addNode rulesGraph "n1" [("y", .int 7)]).nodes.length
        = rulesGraph.nodes.length ∧
      (addNode rulesGraph "n1" [("y", .int 7)]).nodes.lookup "n1"
        = some (dictUpdate [("label", .str "E"), ("x", .int 1)] [("y", .int 7)])) ∧
    (addNode rulesGraph "b" [("z", .int 1)]).nodes
      = rulesGraph.nodes ++ [("b", [("z", .int 1)])] :=
  ⟨⟨((c5_amended rulesGraph "n1" [("y", .int 7)]).1 rfl).1,
    ((c5_amended rulesGraph "n1" [("y", .int 7)]).1 rfl).2
      [("label", .str "E"), ("x", .int 1)] rfl⟩,
   (c5_amended rulesGraph "b" [("z", .int 1)]).2 rfl⟩

/-! ## Claim C6 -/

/-- Python integer addition through `pyArith`. -/
theorem pyAdd_int (a b : Int) :
    pyArith "+" (.int a) (.int b) = .ok (.int (a + b)) := rfl

theorem pySumL_go (ns : List Int) : ∀ a : Int,
    (ns.map Value.int).foldlM (fun acc v => pyArith "+" acc v) (Value.int a)
      = .ok (.int (a + ns.sum)) := by
  induction ns with
  | nil => intro a; simp only [List.map_nil, List.sum_nil, add_zero]; rfl
  | cons n t ih =>
      intro a
      simp only [List.map_cons, List.foldlM_cons, pyAdd_int]
      rw [show ∀ x, (Except.ok x : Except String Value) >>= (fun b => (t.map Value.int).foldlM (fun acc v => pyArith "+" acc v) b) = (t.map Value.int).foldlM (fun acc v => pyArith "+" acc v) x from fun x => rfl]
      rw [ih (a + n)]
      simp [List.sum_cons]
      omega

theorem pySumL_ints (ns : List Int) :
    pySumL (ns.map Value.int) = .ok (.int ns.sum) := by
  have := pySumL_go ns 0
  simpa [pySumL] using this

theorem pyCmp_gt_int (m a : Int) :
    pyCmp ">" (.int m) (.int a) = .ok (.bool (decide (a < m))) := by
  simp [pyCmp, numQ]

theorem pyMaxL_go (ns : List Int) : ∀ a : Int,
    (ns.map Value.int).foldlM (fun cur x => do
        let c ← pyCmp ">" x cur
        pure (if truthy c then x else cur)) (Value.int a)
      = .ok (.int (ns.foldl max a)) := by
  induction ns with
  | nil => intro a; simp only [List.map_nil, List.foldl_nil]; rfl
  | cons n t ih =>
      intro a
      simp only [List.map_cons, List.foldlM_cons]
      have hstep : (do
          let c ← pyCmp ">" (Value.int n) (Value.int a)
          pure (if truthy c then Value.int n else Value.int a) :
            Except String Value) = .ok (.int (max a n)) := by
        rw [pyCmp_gt_int]
        by_cases h : a < n
        · simp [h, truthy, max_eq_right (le_of_lt h)]
        · simp [h, truthy, max_eq_left (not_lt.mp h)]
      rw [show ((do
          let c ← pyCmp ">" (Value.int n) (Value.int a)
          pure (if truthy c then Value.int n else Value.int a) :
            Except String Value) >>= fun b => (t.map Value.int).foldlM (fun cur x => do
        let c ← pyCmp ">" x cur
        pure (if truthy c then x else cur)) b) = ((t.map Value.int).foldlM (fun cur x => do
        let c ← pyCmp ">" x cur
        pure (if truthy c then x else cur)) (Value.int (max a n))) from by rw [hstep]; rfl]
      rw [ih (max a n)]
      simp [List.foldl_cons]

theorem pyCmp_lt_int (m a : Int) :
    pyCmp "<" (.int m) (.int a) = .ok (.bool (decide (m < a))) := by
  simp [pyCmp, numQ]

theorem pyMinL_go (ns : List Int) : ∀ a : Int,
    (ns.map Value.int).foldlM (fun cur x => do
        let c ← pyCmp "<" x cur
        pure (if truthy c then x else cur)) (Value.int a)
      = .ok (.int (ns.foldl min a)) := by
  induction ns with
  | nil => intro a; simp only [List.map_nil, List.foldl_nil]; rfl
  | cons n t ih =>
      intro a
      simp only [List.map_cons, List.foldlM_cons]
      have hstep : (do
          let c ← pyCmp "<" (Value.int n) (Value.int a)
          pure (if truthy c then Value.int n else Value.int a) :
            Except String Value) = .ok (.int (min a n)) := by
        rw [pyCmp_lt_int]
        by_cases h : n < a
        · simp [h, truthy, min_eq_right (le_of_lt h)]
        · simp [h, truthy, min_eq_left (not_lt.mp h)]
      rw [show ((do
          let c ← pyCmp "<" (Value.int n) (Value.int a)
          pure (if truthy c then Value.int n else Value.int a) :
            Except String Value) >>= fun b => (t.map Value.int).foldlM (fun cur x => do
        let c ← pyCmp "<" x cur
        pure (if truthy c then x else cur)) b) = ((t.map Value.int).foldlM (fun cur x => do
        let c ← pyCmp "<" x cur
        pure (if truthy c then x else cur)) (Value.int (min a n))) from by rw [hstep]; rfl]
      rw [ih (min a n)]
      simp [List.foldl_cons]

theorem pyMaxL_ints (n : Int) (ns : List Int) :
    pyMaxL ((n :: ns).map Value.int) = .ok (.int (ns.foldl max n)) := by
  simpa [pyMaxL] using pyMaxL_go ns n

theorem pyMinL_ints (n : Int) (ns : List Int) :
    pyMinL ((n :: ns).map Value.int) = .ok (.int (ns.foldl min n)) := by
  simpa [pyMinL] using pyMinL_go ns n

theorem castListSum (ns : List Int) :
    (ns.map (Int.cast : Int → Rat)).sum = ((ns.sum : Int) : Rat) := by
  induction ns with
  | nil => simp
  | cons n t ih =>
      rw [List.map_cons, List.sum_cons, ih, List.sum_cons]
      push_cast
      ring

theorem numsOf_ints (ns : List Int) :
    numsOf (ns.map Value.int) = .ok (ns.map (Int.cast : Int → Rat)) := by
  induction ns with
  | nil => rfl
  | cons n t ih =>
      show (match numQ (Value.int n) with
        | some q => do
            let qs ← numsOf (t.map Value.int)
            Except.ok (q :: qs)
        | none => Except.error "TypeError: can't convert value to a number")
        = _
      rw [show numQ (Value.int n) = some (n : Rat) from rfl]
      rw [ih]
      rfl

/-- Every int value passes the all-int check of `pyMeanL`. -/
theorem listInts_all_intView (ns : List Int) :
    (ns.map Value.int).all (fun v => (intView v).isSome) = true := by
  induction ns with
  | nil => rfl
  | cons n t ih =>
      simp only [List.map_cons, List.all_cons, ih, Bool.and_true]
      rfl

/-- `pyMeanL` on a nonempty list whose numeric contents are known. -/
theorem pyMeanL_eq (vs : List Value) (qs : List Rat) (hq : numsOf vs = .ok qs)
    (hne : vs.isEmpty = false) :
    pyMeanL vs =
      (if vs.all (fun v => (intView v).isSome)
          && (qs.sum / (qs.length : Rat)).den == 1
       then .ok (.int (qs.sum / (qs.length : Rat)).num)
       else .ok (.float (qs.sum / (qs.length : Rat)))) := by
  unfold pyMeanL
  rw [hq, exbind_ok, hne]
  simp only [Bool.false_eq_true, if_false]

/-- An exactly divisible integer mean has denominator 1 and the
integer quotient as numerator. -/
theorem rat_div_den_eq_one (s : Int) (l : Nat) (hl : l ≠ 0)
    (hd : (l : Int) ∣ s) :
    ((s : Rat) / (l : Rat)).den = 1 ∧
    ((s : Rat) / (l : Rat)).num = s / (l : Int) := by
  obtain ⟨k, hk⟩ := hd
  have hl0 : ((l : Nat) : Rat) ≠ 0 := Nat.cast_ne_zero.mpr hl
  have hm : ((s : Rat) / (l : Rat)) = (k : Rat) := by
    rw [hk]
    push_cast
    exact mul_div_cancel_left₀ _ hl0
  have hq : s / (l : Int) = k := by
    rw [hk]
    exact Int.mul_ediv_cancel_left _ (by exact_mod_cast hl)
  rw [hm, hq]
  exact ⟨Rat.den_intCast k, Rat.num_intCast k⟩

/-- A non-divisible integer mean has denominator ≠ 1. -/
theorem rat_div_den_ne_one (s : Int) (l : Nat) (hl : l ≠ 0)
    (hd : ¬ (l : Int) ∣ s) :
    ((s : Rat) / (l : Rat)).den ≠ 1 := by
  intro h1
  apply hd
  have hl0 : ((l : Nat) : Rat) ≠ 0 := Nat.cast_ne_zero.mpr hl
  have hnum : ((((s : Rat) / (l : Rat)).num : Int) : Rat)
      = (s : Rat) / (l : Rat) := Rat.coe_int_num_of_den_eq_one h1
  have h2 : ((((s : Rat) / (l : Rat)).num * (l : Int) : Int) : Rat) = (s : Rat) := by
    push_cast
    rw [hnum]
    exact div_mul_cancel₀ _ hl0
  have h3 : ((s : Rat) / (l : Rat)).num * (l : Int) = s := by exact_mod_cast h2
  refine ⟨((s : Rat) / (l : Rat)).num, ?_⟩
  rw [mul_comm]
  exact h3.symm

/-- `statistics.mean` over nonempty all-int data with an integral
mean: the int quotient (`statistics._convert` keeps the int type when
the denominator is 1). -/
theorem pyMeanL_ints_int (ns : List Int) (h : ns ≠ [])
    (hd : (ns.length : Int) ∣ ns.sum) :
    pyMeanL (ns.map Value.int) = .ok (.int (ns.sum / (ns.length : Int))) := by
  have hne : (ns.map Value.int).isEmpty = false := by
    cases ns with
    | nil => exact absurd rfl h
    | cons a t => rfl
  have hl : ns.length ≠ 0 := fun hh => h (List.length_eq_zero.mp hh)
  rw [pyMeanL_eq _ _ (numsOf_ints ns) hne, castListSum, List.length_map]
  obtain ⟨hden, hnum⟩ := rat_div_den_eq_one ns.sum ns.length hl hd
  simp only [listInts_all_intView, Bool.true_and, hden, hnum,
    beq_self_eq_true, if_true]

/-- `statistics.mean` over nonempty all-int data with a non-integral
mean: the exact rational mean as a float. -/
theorem pyMeanL_ints_float (ns : List Int) (h : ns ≠ [])
    (hd : ¬ (ns.length : Int) ∣ ns.sum) :
    pyMeanL (ns.map Value.int)
      = .ok (.float ((ns.sum : Rat) / (ns.length : Rat))) := by
  have hne : (ns.map Value.int).isEmpty = false := by
    cases ns with
    | nil => exact absurd rfl h
    | cons a t => rfl
  have hl : ns.length ≠ 0 := fun hh => h (List.length_eq_zero.mp hh)
  rw [pyMeanL_eq _ _ (numsOf_ints ns) hne, castListSum, List.length_map]
  have hb : ((((ns.sum : Int) : Rat) / ((ns.length : Nat) : Rat)).den == 1) = false :=
    beq_eq_false_iff_ne.mpr (rat_div_den_ne_one ns.sum ns.length hl hd)
  simp only [listInts_all_intView, Bool.true_and, hb, Bool.false_eq_true, if_false]

/-- Python true division of an int by a nonzero int (here a cast
length) is always a float — unlike `statistics.mean`. -/
theorem pyArith_div_nat (a : Int) (l : Nat) (hl : (((l : Nat) : Int) == 0) = false) :
    pyArith "/" (.int a) (.int l) = .ok (.float ((a : Rat) / (l : Rat))) := by
  show (if (((l : Nat) : Int) == 0) = true
        then Except.error "ZeroDivisionError: division by zero"
        else Except.ok (Value.float ((a : Rat) / (((l : Nat) : Int) : Rat)))) = _
  rw [hl]
  simp only [Bool.false_eq_true, if_false, Int.cast_natCast]

/-- C6, counterexample.  The claim says aggregation ignores null
values, so a label whose only `f` is null has no non-null values and
the result should be 0.  The code collects the null: `max` returns it
(`max([None]) is None`), and `sum` raises a `TypeError`. -/
theorem c6_counterexample :
    (evaluateAggregation nullFieldGraph [] "max" "E" "f").1 = .ok Value.null ∧
    (evaluateAggregation nullFieldGraph [] "sum" "E" "f").1
      = .error "TypeError: unsupported operand type(s) for +" ∧
    Value.null ≠ Value.int 0 :=
  ⟨rfl, rfl, fun h => Value.noConfusion h⟩

/-- C6, amended.  Expression path (`evaluate_aggregation`, on a graph
with at least one node — an entirely empty graph trips the
`if not self.graph` guard instead): the aggregation over label E and
field f is computed over the values of `f` of every E-node *that has
the field* — nulls included, not ignored (see the counterexample; a
null makes `sum`/`avg` raise and `max`/`min` return null).  When no
node has the field the result is the int 0 for all five functions;
over all-integer values `sum`/`max`/`min` compute the usual
statistics, and `avg` follows `statistics.mean`: an int when the mean
is integral, the exact float mean otherwise.  Aggregation-rule path
(`_apply_aggregation` over the group's member nodes): an empty value
collection yields the int 0 for all five functions, `stddev` is not
implemented — it falls to the `else: value = 0` branch and yields 0
even over nonempty values — and over all-integer values `sum`/`max`/
`min` compute the usual statistics while `avg` is `sum/len` true
division, always a float. -/
theorem c6_amended :
    (∀ (g : Graph) (ent fld : String), g.nodes ≠ [] →
      (aggCollect g ent fld = [] →
        ∀ fn, fn = "avg" ∨ fn = "sum" ∨ fn = "max" ∨ fn = "min" ∨ fn = "stddev" →
        (evaluateAggregation g [] fn ent fld).1 = .ok (.int 0)) ∧
      (∀ ns : List Int, aggCollect g ent fld = ns.map Value.int →
        (evaluateAggregation g [] "sum" ent fld).1 = .ok (.int ns.sum) ∧
        (ns ≠ [] → (ns.length : Int) ∣ ns.sum →
          (evaluateAggregation g [] "avg" ent fld).1
            = .ok (.int (ns.sum / (ns.length : Int)))) ∧
        (ns ≠ [] → ¬ (ns.length : Int) ∣ ns.sum →
          (evaluateAggregation g [] "avg" ent fld).1
            = .ok (.float ((ns.sum : Rat) / (ns.length : Rat))))) ∧
      (∀ (n : Int) (ns : List Int), aggCollect g ent fld = (n :: ns).map Value.int →
        (evaluateAggregation g [] "max" ent fld).1 = .ok (.int (ns.foldl max n)) ∧
        (evaluateAggregation g [] "min" ent fld).1 = .ok (.int (ns.foldl min n)))) ∧
    (∀ (g : Graph) (aggNodes : List String) (fld : String) (rd : Option Int),
      (∀ fn, fn = "avg" ∨ fn = "sum" ∨ fn = "max" ∨ fn = "min" ∨ fn = "stddev" →
        aggNodes.filterMap (fun nn => (nodeProps g nn).lookup fld) = [] →
        aggValueOf g aggNodes ⟨fn, fld, rd⟩ = .ok (.int 0)) ∧
      aggValueOf g aggNodes ⟨"stddev", fld, rd⟩ = .ok (.int 0) ∧
      (∀ ns : List Int,
        aggNodes.filterMap (fun nn => (nodeProps g nn).lookup fld) = ns.map Value.int →
        aggValueOf g aggNodes ⟨"sum", fld, rd⟩ = .ok (.int ns.sum) ∧
        (ns ≠ [] → aggValueOf g aggNodes ⟨"avg", fld, rd⟩
            = .ok (.float ((ns.sum : Rat) / (ns.length : Rat))))) ∧
      (∀ (n : Int) (ns : List Int),
        aggNodes.filterMap (fun nn => (nodeProps g nn).lookup fld) = (n :: ns).map Value.int →
        aggValueOf g aggNodes ⟨"max", fld, rd⟩ = .ok (.int (ns.foldl max n)) ∧
        aggValueOf g aggNodes ⟨"min", fld, rd⟩ = .ok (.int (ns.foldl min n)))) := by
  constructor
  · intro g ent fld hg
    have hne : g.nodes.isEmpty = false := by
      cases hh : g.nodes with
      | nil => exact absurd hh hg
      | cons a t => rfl
    have hev : ∀ fn, (evaluateAggregation g [] fn ent fld).1 =
        (match aggCompute g fn ent fld with
         | .ok v => Except.ok v
         | .error e => Except.error e) := by
      intro fn
      unfold evaluateAggregation
      rw [show (List.lookup (aggCacheKey fn ent fld) ([] : Cache)) = none from rfl]
      rw [hne]
      show (match aggCompute g fn ent fld with
         | .ok v => (Except.ok v, dictSet [] (aggCacheKey fn ent fld) v)
         | .error e => (Except.error e, ([] : Cache))).1 = _
      cases aggCompute g fn ent fld <;> rfl
    refine ⟨?_, ?_, ?_⟩
    · intro hv fn hfn
      rw [hev fn]
      rcases hfn with h | h | h | h | h <;>
        (subst h; unfold aggCompute; rw [hv]; rfl)
    · intro ns hv
      refine ⟨?_, ?_, ?_⟩
      · rw [hev "sum"]
        unfold aggCompute
        rw [hv]
        cases ns with
        | nil => rfl
        | cons n t =>
            show (match pySumL ((n :: t).map Value.int) with
              | .ok v => Except.ok v | .error e => Except.error e) = _
            rw [pySumL_ints]
      · intro hns hd
        rw [hev "avg"]
        unfold aggCompute
        rw [hv]
        cases ns with
        | nil => exact absurd rfl hns
        | cons n t =>
            show (match pyMeanL ((n :: t).map Value.int) with
              | .ok v => Except.ok v | .error e => Except.error e) = _
            rw [pyMeanL_ints_int _ hns hd]
      · intro hns hd
        rw [hev "avg"]
        unfold aggCompute
        rw [hv]
        cases ns with
        | nil => exact absurd rfl hns
        | cons n t =>
            show (match pyMeanL ((n :: t).map Value.int) with
              | .ok v => Except.ok v | .error e => Except.error e) = _
            rw [pyMeanL_ints_float _ hns hd]
    · intro n ns hv
      constructor
      · rw [hev "max"]
        unfold aggCompute
        rw [hv]
        show (match pyMaxL ((n :: ns).map Value.int) with
          | .ok v => Except.ok v | .error e => Except.error e) = _
        rw [pyMaxL_ints]
      · rw [hev "min"]
        unfold aggCompute
        rw [hv]
        show (match pyMinL ((n :: ns).map Value.int) with
          | .ok v => Except.ok v | .error e => Except.error e) = _
        rw [pyMinL_ints]
  · intro g aggNodes fld rd
    refine ⟨?_, ?_, ?_, ?_⟩
    · intro fn hfn hv
      rcases hfn with h | h | h | h | h <;>
        (subst h; simp only [aggValueOf]; rw [hv]; rfl)
    · cases hv : aggNodes.filterMap (fun nn => (nodeProps g nn).lookup fld) with
      | nil => simp only [aggValueOf]; rw [hv]; rfl
      | cons a t => simp only [aggValueOf]; rw [hv]; rfl
    · intro ns hv
      constructor
      · simp only [aggValueOf]
        rw [hv]
        cases ns with
        | nil => rfl
        | cons n t =>
            show pySumL ((n :: t).map Value.int) = _
            rw [pySumL_ints]
      · intro hns
        simp only [aggValueOf]
        rw [hv]
        cases ns with
        | nil => exact absurd rfl hns
        | cons n t =>
            have hz : ((((n :: t).length : Nat) : Int) == 0) = false := by
              simp only [List.length_cons]
              exact beq_eq_false_iff_ne.mpr (by omega)
            show (do
                let s ← pySumL ((n :: t).map Value.int)
                pyArith "/" s (.int (((n :: t).map Value.int).length)))
              = _
            rw [pySumL_ints, exbind_ok, List.length_map, pyArith_div_nat _ _ hz]
    · intro n ns hv
      constructor
      · simp only [aggValueOf]
        rw [hv]
        show pyMaxL ((n :: ns).map Value.int) = _
        rw [pyMaxL_ints]
      · simp only [aggValueOf]
        rw [hv]
        show pyMinL ((n :: ns).map Value.int) = _
        rw [pyMinL_ints]

/-- C6 amended, witness.  Expression path over the integer `f` values
2 and 4 of `intFieldGraph`: `sum` is 6, `avg` is the *int* 3 (the mean
is integral, as `statistics.mean([2, 4])` returns the int 3), `max` is
4; over the values 2 and 3 of `oddFieldGraph`, `avg` is the float 5/2;
over the node-less label `Z` the result is 0.  Rule path over the two
member nodes of `intFieldGraph`: `stddev` is 0, `avg` is the *float* 3
(true division), `max` is 4; with no member nodes, `sum` is 0. -/
theorem c6_amended_witness :
    aggCollect intFieldGraph "E" "f" = ([2, 4] : List Int).map Value.int ∧
    (evaluateAggregation intFieldGraph [] "sum" "E" "f").1
      = .ok (.int (([2, 4] : List Int).sum)) ∧
    (evaluateAggregation intFieldGraph [] "avg" "E" "f").1
      = .ok (.int (([2, 4] : List Int).sum / (([2, 4] : List Int).length : Int))) ∧
    (evaluateAggregation oddFieldGraph [] "avg" "E" "f").1
      = .ok (.float ((([2, 3] : List Int).sum : Rat) /
          (([2, 3] : List Int).length : Rat))) ∧
    (evaluateAggregation intFieldGraph [] "max" "E" "f").1
      = .ok (.int (([4] : List Int).foldl max 2)) ∧
    (evaluateAggregation intFieldGraph [] "sum" "Z" "f").1 = .ok (.int 0) ∧
    aggValueOf intFieldGraph ["n1", "n2"] ⟨"stddev", "f", none⟩ = .ok (.int 0) ∧
    aggValueOf intFieldGraph ["n1", "n2"] ⟨"avg", "f", none⟩
      = .ok (.float ((([2, 4] : List Int).sum : Rat) /
          (([2, 4] : List Int).length : Rat))) ∧
    aggValueOf intFieldGraph ["n1", "n2"] ⟨"max", "f", none⟩
      = .ok (.int (([4] : List Int).foldl max 2)) ∧
    aggValueOf intFieldGraph [] ⟨"sum", "f", none⟩ = .ok (.int 0) := by
  have hne : intFieldGraph.nodes ≠ [] := fun h => List.noConfusion h
  have hno : oddFieldGraph.nodes ≠ [] := fun h => List.noConfusion h
  have hdvd : ((([2, 4] : List Int).length : Int)) ∣ ([2, 4] : List Int).sum :=
    ⟨3, rfl⟩
  have hndvd : ¬ ((([2, 3] : List Int).length : Int)) ∣ ([2, 3] : List Int).sum := by
    intro hdv
    obtain ⟨c, hc⟩ := hdv
    have hc' : (5 : Int) = 2 * c := hc
    omega
  obtain ⟨hexp, hrules⟩ := c6_amended
  refine ⟨rfl, ?_, ?_, ?_, ?_, ?_, ?_, ?_, ?_, ?_⟩
  · exact ((hexp intFieldGraph "E" "f" hne).2.1 [2, 4] rfl).1
  · exact ((hexp intFieldGraph "E" "f" hne).2.1 [2, 4] rfl).2.1
      (fun h => List.noConfusion h) hdvd
  · exact ((hexp oddFieldGraph "E" "f" hno).2.1 [2, 3] rfl).2.2
      (fun h => List.noConfusion h) hndvd
  · exact ((hexp intFieldGraph "E" "f" hne).2.2 2 [4] rfl).1
  · exact (hexp intFieldGraph "Z" "f" hne).1 rfl "sum" (Or.inr (Or.inl rfl))
  · exact (hrules intFieldGraph ["n1", "n2"] "f" none).2.1
  · exact ((hrules intFieldGraph ["n1", "n2"] "f" none).2.2.1 [2, 4] rfl).2
      (fun h => List.noConfusion h)
  · exact ((hrules intFieldGraph ["n1", "n2"] "f" none).2.2.2 2 [4] rfl).1
  · exact (hrules intFieldGraph [] "f" none).1 "sum" (Or.inr (Or.inl rfl)) rfl

/-! ## Claim C7 -/

/-- C7, counterexample.  The claim says every enrichment expression
containing any of the six aggregation calls is precomputed before the
node loop against an empty context.  The code tests only for the
substrings `"avg("` and `"sum("`; a `max(...)` expression is instead
evaluated inside the loop, after earlier enrichments have already
mutated the nodes.  In `enrichRule`, the first enrichment sets `f` to
100 and the second stores `max(E.f)`: the code yields `m = 100`, the
claim's before-the-loop semantics (`applyEnrichPropertiesClaimC7`)
yields `m = 1`. -/
theorem c7_counterexample :
    (applyEnrichProperties enrichRule ⟨enrichGraph, []⟩).map
        (fun st => (nodeProps st.graph "n1").lookup "m") = .ok (some (.int 100)) ∧
    (applyEnrichPropertiesClaimC7 enrichRule ⟨enrichGraph, []⟩).map
        (fun st => (nodeProps st.graph "n1").lookup "m") = .ok (some (.int 1)) :=
  ⟨rfl, rfl⟩

/-- C7, amended: only expressions containing the substring `"avg("` or
`"sum("` are precomputed — once, before the node loop, against the
empty context — and their stored value is then used verbatim for every
enriched node; an expression matching neither substring (so any
`max`/`min`/`count`/`stddev` call) is not precomputed and is evaluated
inside the per-node loop. -/
theorem c7_amended :
    (∀ (g : Graph) (c : Cache) (e : Enrichment) (ex : String),
      e.expression = some ex →
      containsSubstr ex "avg(" = false → containsSubstr ex "sum(" = false →
      precomputeEnrich g [e] c = .ok ([], c)) ∧
    (∀ (g : Graph) (c : Cache) (e : Enrichment) (ex : String) (v : Value)
        (c' : Cache),
      e.expression = some ex →
      (containsSubstr ex "avg(" || containsSubstr ex "sum(") = true →
      evaluate g c ex [] = (.ok v, c') →
      precomputeEnrich g [e] c = .ok ([(e.property, v)], c')) ∧
    (∀ (pre : List (String × Value)) (nodeId : String) (e : Enrichment)
        (rest : List Enrichment) (g : Graph) (c : Cache) (ex : String)
        (v : Value),
      pre.lookup e.property = some v → e.rules = none →
      e.expression = some ex → e.roundTo = none →
      enrichNodeStep pre nodeId (e :: rest) g c
        = enrichNodeStep pre nodeId rest (setNodeProp g nodeId e.property v) c) := by
  refine ⟨fun g c e ex he h1 h2 => ?_, fun g c e ex v c' he hc hev => ?_,
    fun pre nodeId e rest g c ex v hl hr he hround => ?_⟩
  · simp [precomputeEnrich, he, h1, h2]
  · simp [precomputeEnrich, he, hc, hev]
    rfl
  · simp [enrichNodeStep, hr, he, hl, hround]

/-- C7 amended, witness: a `count(E)` expression is not precomputed; a
`sum(E.f)` expression is precomputed to 2 over `enrichGraph` with the
empty context; a precomputed `m` is written to the node without
re-evaluation. -/
theorem c7_amended_witness :
    precomputeEnrich enrichGraph [⟨"c", none, some "count(E)", none, none⟩] []
      = .ok ([], []) ∧
    precomputeEnrich enrichGraph [⟨"m", none, some "sum(E.f)", none, none⟩] []
      = .ok ([("m", .int 2)], [("sum_E_f", .int 2)]) ∧
    enrichNodeStep [("m", .int 1)] "n1"
        [⟨"m", none, some "max(E.f)", none, none⟩] enrichGraph []
      = enrichNodeStep [("m", .int 1)] "n1" []
          (setNodeProp enrichGraph "n1" "m" (.int 1)) [] :=
  ⟨c7_amended.1 enrichGraph [] ⟨"c", none, some "count(E)", none, none⟩
      "count(E)" rfl rfl rfl,
   c7_amended.2.1 enrichGraph [] ⟨"m", none, some "sum(E.f)", none, none⟩
      "sum(E.f)" (.int 2) [("sum_E_f", .int 2)] rfl rfl rfl,
   c7_amended.2.2 [("m", .int 1)] "n1" ⟨"m", none, some "max(E.f)", none, none⟩
      [] enrichGraph [] "max(E.f)" (.int 1) rfl rfl rfl rfl⟩

/-! ## Claim C8 -/

/-- C8: `get_nodes_by_entity` answers from the builder's
`_entity_node_map`, which only entity loading ever writes — the rule
engine reads it but returns only a mutated graph and cache, so
rule-created node ids are never in it.  Formally: (1) a successful
`_load_entity` records exactly the per-row generated ids in row order;
(2) the map entry written for an entity is what
`get_nodes_by_entity` then returns; (3, 4) a `cross_link` whose
`from_entity` or `to_entity` is absent from the map (a label that only
rules created) iterates an empty sequence and leaves the state
untouched; (5) so does a `derived_node` whose first source entity is
absent; (6) and an `aggregation` whose `group_by_entity` is absent. -/
theorem c8_builder_map_scope :
    (∀ (ent : Entity) (rows : List Row) (g g' : Graph) (ids : List String),
      loadEntity ent rows g = .ok (g', ids) → genIds ent rows = .ok ids) ∧
    (∀ (m : EntityMap) (ename : String) (ids : List String),
      getNodesByEntity (mapSet m ename ids) ename = ids) ∧
    (∀ (emap : EntityMap) (t : CrossLinkT) (st : EngineState),
      emap.lookup t.from_entity = none → applyCrossLink emap t st = .ok st) ∧
    (∀ (emap : EntityMap) (t : CrossLinkT) (st : EngineState),
      emap.lookup t.to_entity = none → applyCrossLink emap t st = .ok st) ∧
    (∀ (emap : EntityMap) (t : DerivedNodeT) (st : EngineState)
        (a e0 : String) (rest : List (String × String)),
      t.source_entities = (a, e0) :: rest → emap.lookup e0 = none →
      applyDerivedNode emap t st = .ok st) ∧
    (∀ (emap : EntityMap) (t : AggT) (st : EngineState),
      emap.lookup t.group_by_entity = none → applyAggregation emap t st = .ok st) := by
  refine ⟨?_, ?_, fun emap t st h => ?_, fun emap t st h => ?_,
    fun emap t st a e0 rest hsrc h => ?_, fun emap t st h => ?_⟩
  · intro ent rows
    induction rows with
    | nil =>
        intro g g' ids h
        have h2 : ([] : List String) = ids := congrArg Prod.snd (Except.ok.inj h)
        rw [← h2]
        rfl
    | cons row rest ih =>
        intro g g' ids h
        unfold loadEntity at h
        cases hid : generateNodeId ent row with
        | error e =>
            rw [hid, exbind_error] at h
            exact Except.noConfusion h
        | ok id =>
            rw [hid, exbind_ok] at h
            cases hpr : extractProperties ent row with
            | error e =>
                rw [hpr, exbind_error] at h
                exact Except.noConfusion h
            | ok props =>
                rw [hpr, exbind_ok] at h
                cases hrec : loadEntity ent rest
                    (addNode g id (dictSet props "label" (.str ent.name))) with
                | error e =>
                    rw [hrec, exbind_error] at h
                    exact Except.noConfusion h
                | ok res =>
                    rw [hrec, exbind_ok] at h
                    obtain ⟨g2, ids2⟩ := res
                    have hids : id :: ids2 = ids :=
                      congrArg Prod.snd (Except.ok.inj h)
                    rw [← hids]
                    unfold genIds
                    rw [hid, exbind_ok, ih _ _ _ hrec, exbind_ok]
  · intro m ename ids
    simp [getNodesByEntity, lookup_mapSet]
  · simp [applyCrossLink, getNodesByEntity, h, crossLinkOuter]
  · have hto : getNodesByEntity emap t.to_entity = [] := by
      simp [getNodesByEntity, h]
    unfold applyCrossLink
    generalize getNodesByEntity emap t.from_entity = fns
    induction fns generalizing st with
    | nil => rfl
    | cons fn rest ih =>
        unfold crossLinkOuter
        rw [hto]
        exact ih st
  · simp [applyDerivedNode, hsrc, List.lookup, getNodesByEntity, h, derivedLoop]
  · simp [applyAggregation, getNodesByEntity, h, applyAggLoop]

/-- C8, witness: loading the duplicate-id rows yields exactly the
row-order ids `["a", "a"]`; the stored entry is returned verbatim; and
the three rule types do nothing when their entity is not in the
builder map. -/
theorem c8_builder_map_scope_witness :
    genIds dupEntity [dupRow1, dupRow2] = .ok ["a", "a"] ∧
    getNodesByEntity (mapSet [] "E" ["a", "a"]) "E" = ["a", "a"] ∧
    applyCrossLink [] ⟨"t", "A", "A", "L", fieldMatchCond, []⟩ ⟨Graph.empty, []⟩
      = .ok ⟨Graph.empty, []⟩ ∧
    applyDerivedNode [] ⟨"t", "E", [("a", "A")], fieldMatchCond, "", [], []⟩
        ⟨Graph.empty, []⟩ = .ok ⟨Graph.empty, []⟩ ∧
    applyAggregation [] ⟨"t", "S", "G", "E", "", [], [], []⟩ ⟨Graph.empty, []⟩
      = .ok ⟨Graph.empty, []⟩ :=
  ⟨c8_builder_map_scope.1 dupEntity [dupRow1, dupRow2] Graph.empty
      ⟨[("a", [("x", .int 2), ("label", .str "E")])], []⟩ ["a", "a"] rfl,
   c8_builder_map_scope.2.1 [] "E" ["a", "a"],
   c8_builder_map_scope.2.2.1 [] ⟨"t", "A", "A", "L", fieldMatchCond, []⟩
      ⟨Graph.empty, []⟩ rfl,
   c8_builder_map_scope.2.2.2.2.1 [] ⟨"t", "E", [("a", "A")], fieldMatchCond, "", [], []⟩
      ⟨Graph.empty, []⟩ "a" "A" [] rfl rfl,
   c8_builder_map_scope.2.2.2.2.2 [] ⟨"t", "S", "G", "E", "", [], [], []⟩
      ⟨Graph.empty, []⟩ rfl⟩

/-! ## Claim C9 -/

/-- Under never-matching rules, `_evaluate_rules` returns Python None. -/
theorem evalRulesNull (rs : List EnrichRule)
    (HR : ∀ r ∈ rs, r.condition ≠ "true" ∧
      ∀ (g : Graph) (c : Cache) (ctx : Ctx) (v : Value) (c' : Cache),
        evaluate g c r.condition ctx = (.ok v, c') → truthy v = false) :
    ∀ (g : Graph) (c : Cache) (ctx : Ctx),
      ∃ c', evaluateRules rs g c ctx = (.ok .null, c') := by
  induction rs with
  | nil => exact fun g c ctx => ⟨c, rfl⟩
  | cons r rest ih =>
      intro g c ctx
      have hr := HR r (List.mem_cons_self r rest)
      have ihr := ih (fun r' h' => HR r' (List.mem_cons_of_mem r h'))
      have hcond : (r.condition == "true") = false := by
        simp [beq_eq_false_iff_ne, hr.1]
      unfold evaluateRules
      rw [hcond]
      simp only [Bool.false_eq_true, if_false]
      rcases hev : evaluate g c r.condition ctx with ⟨res, c2⟩
      cases res with
      | ok v =>
          have htr : truthy v = false := hr.2 g c ctx v c2 hev
          simp only [htr, Bool.false_eq_true, if_false]
          exact ihr g c2 ctx
      | error e => exact ihr g c2 ctx

theorem enrichStepNull (p : String) (rs : List EnrichRule)
    (HR : ∀ r ∈ rs, r.condition ≠ "true" ∧
      ∀ (g : Graph) (c : Cache) (ctx : Ctx) (v : Value) (c' : Cache),
        evaluate g c r.condition ctx = (.ok v, c') → truthy v = false) :
    ∀ (g : Graph) (c : Cache) (id : String),
      ∃ c', enrichNodeStep [] id [⟨p, some rs, none, none, none⟩] g c
        = (setNodeProp g id p .null, c') := by
  intro g c id
  obtain ⟨c', hc⟩ := evalRulesNull rs HR g c
    (dictUpdate [("node", .dict (nodeProps g id))] [])
  refine ⟨c', ?_⟩
  simp only [enrichNodeStep, hc]

theorem setNodeProp_lookup_isSome (g : Graph) (t id p : String) (v : Value) :
    (((setNodeProp g t p v).nodes.lookup id).isSome)
      = ((g.nodes.lookup id).isSome) := by
  by_cases h : id = t
  · subst h
    simp [setNodeProp, lookup_map_update]
  · simp [setNodeProp, lookup_map_update_ne _ _ _ _ h]

theorem setNodeProp_self_null (g : Graph) (id p : String)
    (hs : (g.nodes.lookup id).isSome) :
    (nodeProps (setNodeProp g id p .null) id).lookup p = some .null := by
  obtain ⟨old, hold⟩ := Option.isSome_iff_exists.mp hs
  unfold nodeProps setNodeProp
  rw [lookup_map_update, hold]
  simp [lookup_dictSet_self]

theorem setNodeProp_preserve_null (g : Graph) (t id p : String)
    (h : (nodeProps g id).lookup p = some Value.null) :
    (nodeProps (setNodeProp g t p .null) id).lookup p = some .null := by
  by_cases hid : id = t
  · subst hid
    cases hl : g.nodes.lookup id with
    | none =>
        unfold nodeProps at h
        rw [hl] at h
        exact absurd h (by simp)
    | some old =>
        exact setNodeProp_self_null g id p (by rw [hl]; rfl)
  · unfold nodeProps setNodeProp
    rw [lookup_map_update_ne _ _ _ _ hid]
    exact h

theorem enrichLoopPreserves (p : String) (rs : List EnrichRule)
    (HR : ∀ r ∈ rs, r.condition ≠ "true" ∧
      ∀ (g : Graph) (c : Cache) (ctx : Ctx) (v : Value) (c' : Cache),
        evaluate g c r.condition ctx = (.ok v, c') → truthy v = false) :
    ∀ (targets : List String) (g : Graph) (c : Cache) (id : String),
      (nodeProps g id).lookup p = some Value.null →
      (nodeProps (enrichNodesLoop [] [⟨p, some rs, none, none, none⟩]
          targets g c).1 id).lookup p = some .null := by
  intro targets
  induction targets with
  | nil => exact fun g c id h => h
  | cons t rest ih =>
      intro g c id h
      obtain ⟨c', hstep⟩ := enrichStepNull p rs HR g c t
      unfold enrichNodesLoop
      rw [hstep]
      exact ih _ _ _ (setNodeProp_preserve_null g t id p h)

theorem enrichLoopSets (p : String) (rs : List EnrichRule)
    (HR : ∀ r ∈ rs, r.condition ≠ "true" ∧
      ∀ (g : Graph) (c : Cache) (ctx : Ctx) (v : Value) (c' : Cache),
        evaluate g c r.condition ctx = (.ok v, c') → truthy v = false) :
    ∀ (targets : List String) (g : Graph) (c : Cache) (id : String),
      id ∈ targets → (g.nodes.lookup id).isSome →
      (nodeProps (enrichNodesLoop [] [⟨p, some rs, none, none, none⟩]
          targets g c).1 id).lookup p = some .null := by
  intro targets
  induction targets with
  | nil => intro g c id h; exact absurd h (List.not_mem_nil id)
  | cons t rest ih =>
      intro g c id hmem hsome
      obtain ⟨c', hstep⟩ := enrichStepNull p rs HR g c t
      unfold enrichNodesLoop
      rw [hstep]
      rcases List.mem_cons.mp hmem with heq | hmem'
      · subst heq
        exact enrichLoopPreserves p rs HR rest _ _ id
          (setNodeProp_self_null g id p hsome)
      · exact ih _ _ _ hmem'
          (by rw [setNodeProp_lookup_isSome]; exact hsome)

theorem mem_fst_lookup_isSome (l : List (String × PropMap)) (id : String)
    (h : ∃ pr ∈ l, pr.1 = id) : (l.lookup id).isSome := by
  induction l with
  | nil => simp at h
  | cons nd rest ih =>
      obtain ⟨pr, hmem, heq⟩ := h
      rcases List.mem_cons.mp hmem with hh | hmem'
      · subst hh
        obtain ⟨k, pm⟩ := pr
        cases heq
        simp [List.lookup]
      · simp only [List.lookup]
        cases hkk : (id == nd.1)
        · exact ih ⟨pr, hmem', heq⟩
        · rfl

/-- C9: for an `enrich_properties` enrichment driven by a rules list,
if no rule has the literal condition `"true"` and no rule's condition
ever evaluates truthy, `_evaluate_rules` returns Python `None` and the
enrichment still writes the property — with value null — onto every
target node; nothing is raised and the property is not left absent. -/
theorem c9_rules_null (g : Graph) (tid tgt p : String) (rs : List EnrichRule)
    (c0 : Cache) (st' : EngineState)
    (HR : ∀ r ∈ rs, r.condition ≠ "true" ∧
      ∀ (g' : Graph) (c : Cache) (ctx : Ctx) (v : Value) (c' : Cache),
        evaluate g' c r.condition ctx = (.ok v, c') → truthy v = false)
    (happ : applyEnrichProperties ⟨tid, tgt, [⟨p, some rs, none, none, none⟩]⟩
        ⟨g, c0⟩ = .ok st') :
    ∀ id ∈ (nodesWithLabel g tgt).map (fun nd => nd.1),
      (nodeProps st'.graph id).lookup p = some Value.null := by
  intro id hid
  have happ2 : Except.ok (⟨(enrichNodesLoop [] [⟨p, some rs, none, none, none⟩]
        ((nodesWithLabel g tgt).map (fun nd => nd.1)) g []).1,
      (enrichNodesLoop [] [⟨p, some rs, none, none, none⟩]
        ((nodesWithLabel g tgt).map (fun nd => nd.1)) g []).2⟩ : EngineState)
      = .ok st' := happ
  have hst := Except.ok.inj happ2
  rw [← hst]
  have hsome : (g.nodes.lookup id).isSome := by
    obtain ⟨nd, hmem, heq⟩ := List.mem_map.mp hid
    exact mem_fst_lookup_isSome g.nodes id
      ⟨nd, List.mem_of_mem_filter hmem, heq⟩
  exact enrichLoopSets p rs HR _ g [] id hid hsome

/-- C9, witness: on `rulesGraph` with the single never-matching rule
`"0 > 1"`, the enrichment writes `p = null` onto node `n1`. -/
theorem c9_rules_null_witness :
    (nodeProps (⟨[("n1", [("label", Value.str "E"), ("x", Value.int 1),
        ("p", Value.null)])], []⟩ : Graph) "n1").lookup "p"
      = some Value.null :=
  c9_rules_null rulesGraph "t9" "E" "p" [⟨"0 > 1", some (.str "X")⟩] []
    ⟨⟨[("n1", [("label", .str "E"), ("x", .int 1), ("p", .null)])], []⟩, []⟩
    (fun r hr => by
      cases List.mem_singleton.mp hr
      refine ⟨by decide, ?_⟩
      intro g' c ctx v c' hev
      have hrfl : evaluate g' c "0 > 1" ctx = (.ok (.bool false), c) := rfl
      rw [hrfl] at hev
      have hv : (Except.ok (Value.bool false) : Except String Value)
          = Except.ok v := congrArg Prod.fst hev
      cases Except.ok.inj hv
      rfl)
    rfl "n1" (List.mem_singleton.mpr rfl)

/-! ## Claim C10 -/

theorem addEdge_edges (g : Graph) (u v : String) (props : PropMap) :
    (addEdge g u v props).edges = g.edges ++ [(u, v, props)] := by
  simp only [addEdge]
  split <;> split <;> rfl

theorem addEdge_nodes_mem (g : Graph) (u v : String) (props : PropMap) :
    ∀ nd ∈ g.nodes, nd ∈ (addEdge g u v props).nodes := by
  intro nd h
  simp only [addEdge]
  split <;> split <;> simp [List.mem_append, h]

/-- C10: in `_create_derived_edges`, an edge definition whose endpoint
reference fails to resolve (it is not `"new_node"`, no bound
`<ref>_node_id` exists in the tuple context, and the `"facility"`
sentinel finds no bound dict carrying `facility_id`) resolves to
`None`; the edge loop is total — no error, no warning — and produces
exactly the edges whose two resolved endpoints are truthy, in order,
while every pre-existing node (the derived node included, added just
before this loop runs) survives. -/
theorem c10_derived_edges :
    (∀ (ref current : String) (ctx : Ctx),
      ref ≠ "new_node" →
      ctx.lookup (ref ++ "_node_id") = none →
      (ref = "facility" →
        ctx.findSome? (fun kv =>
          match kv.2 with
          | .dict d => d.lookup "facility_id"
          | _ => none) = none) →
      resolveNodeReference ref current ctx = none) ∧
    (∀ (nodeId : String) (eds : List EdgeDef) (ctx : Ctx) (g : Graph),
      (createDerivedEdges nodeId eds ctx g).edges
        = g.edges ++ eds.filterMap (fun ed =>
            if truthyOptV (resolveNodeReference ed.fromRef nodeId ctx) &&
               truthyOptV (resolveNodeReference ed.toRef nodeId ctx) then
              some (pythonStr ((resolveNodeReference ed.fromRef nodeId ctx).getD .null),
                pythonStr ((resolveNodeReference ed.toRef nodeId ctx).getD .null),
                edgePropsOf ed.properties ed.label)
            else none) ∧
      (∀ nd ∈ g.nodes, nd ∈ (createDerivedEdges nodeId eds ctx g).nodes)) := by
  constructor
  · intro ref current ctx h1 h2 h3
    have hb : (ref == "new_node") = false := by simp [beq_eq_false_iff_ne, h1]
    by_cases hf : ref = "facility"
    · subst hf
      have h2' : ctx.lookup "facility_node_id" = none := h2
      simp [resolveNodeReference, hb, h2', h3 rfl]
    · have hbf : (ref == "facility") = false := by simp [beq_eq_false_iff_ne, hf]
      simp [resolveNodeReference, hb, h2, hbf]
  · intro nodeId eds ctx
    induction eds with
    | nil =>
        intro g
        exact ⟨by simp [createDerivedEdges], fun nd h => h⟩
    | cons ed rest ih =>
        intro g
        simp only [createDerivedEdges]
        by_cases hc : (truthyOptV (resolveNodeReference ed.fromRef nodeId ctx) &&
            truthyOptV (resolveNodeReference ed.toRef nodeId ctx)) = true
        · rw [if_pos hc]
          constructor
          · rw [(ih _).1, addEdge_edges, List.filterMap_cons, if_pos hc]
            simp [List.append_assoc]
          · intro nd h
            exact (ih _).2 nd (addEdge_nodes_mem g _ _ _ nd h)
        · rw [if_neg hc]
          constructor
          · rw [(ih g).1, List.filterMap_cons, if_neg hc]
          · exact (ih g).2

/-- C10, witness: in `edgeCtx` only alias `a` is bound; the edge
definition referring to `b` is silently dropped while the `a` edge is
added, and the pre-existing node `a1` survives. -/
theorem c10_derived_edges_witness :
    resolveNodeReference "b" "NEW" edgeCtx = none ∧
    (createDerivedEdges "NEW" [⟨"b", "new_node", "REL", []⟩,
        ⟨"a", "new_node", "REL2", []⟩] edgeCtx edgeGraph).edges
      = edgeGraph.edges ++ [("a1", "NEW", [("label", .str "REL2")])] ∧
    ("a1", ([] : PropMap)) ∈ (createDerivedEdges "NEW"
        [⟨"b", "new_node", "REL", []⟩, ⟨"a", "new_node", "REL2", []⟩]
        edgeCtx edgeGraph).nodes :=
  ⟨c10_derived_edges.1 "b" "NEW" edgeCtx (by decide) rfl
      (fun h => absurd h (by decide)),
   by
    rw [(c10_derived_edges.2 "NEW" [⟨"b", "new_node", "REL", []⟩,
      ⟨"a", "new_node", "REL2", []⟩] edgeCtx edgeGraph).1]
    rfl,
   (c10_derived_edges.2 "NEW" [⟨"b", "new_node", "REL", []⟩,
      ⟨"a", "new_node", "REL2", []⟩] edgeCtx edgeGraph).2 ("a1", [])
      (by simp [edgeGraph])⟩

end LPG
